import Mathlib

/-!
Shallow embedding of the WebAuth keyring and token subsystems
(src/lib/keyring.c, src/lib/token-encode.c) together with spec-modelled
definitions for the parts of the library whose sources are not in the
repository snapshot (the attribute-stream codec, the crypto layer and the
key constructor), modelled from the specification (spec.md sections 4.1,
4.2, 6.1, 6.2).

Timestamps are seconds since the epoch and are modelled as naturals; the
current wall-clock time is passed explicitly as a parameter `now` wherever
the C code calls time(NULL).
-/

namespace WebAuth

/-- WebAuth status codes (the WA_ERR_* constants of webauth/basic.h, listed
in spec section 7).  WA_ERR_NONE is success. -/
inductive WaErr where
  | NONE
  | NO_MEM
  | CORRUPT
  | BAD_HMAC
  | BAD_KEY
  | RAND_FAILURE
  | NOT_FOUND
  | INVALID
  | FILE_NOT_FOUND
  | FILE_VERSION
  | FILE_OPENREAD
  | FILE_OPENWRITE
  | FILE_READ
  | FILE_WRITE
  | TOKEN_EXPIRED
  deriving DecidableEq, Repr

/-- A symmetric key (struct webauth_key): a key type (1 = WA_KEY_AES) and the
raw key material.  Equality is by content; the length field of the C struct
is the length of the material. -/
structure WKey where
  typ : Nat
  material : List Char
  deriving DecidableEq, Repr

/-- Modelled from the spec: webauth_key_create (lib/keys.c is not in the
snapshot).  Per spec section 3 a key has type AES (code 1) and a length of
16, 24 or 32 bytes; any other type or length is rejected (with a status that
is not WA_ERR_NONE and not a FILE_* status).  The supplied material is used
as is. -/
def webauth_key_create (typ : Nat) (material : List Char) : Except WaErr WKey :=
  if typ ≠ 1 then .error .INVALID
  else if material.length = 16 ∨ material.length = 24 ∨ material.length = 32 then
    .ok ⟨typ, material⟩
  else .error .INVALID

/-- webauth_key_copy makes a content-equal copy of a key (keys are immutable,
equality is by content). -/
def webauth_key_copy (key : WKey) : WKey := ⟨key.typ, key.material⟩

/-- One keyring entry (struct webauth_keyring_entry): creation time,
valid-after time, and the key. -/
structure KeyringEntry where
  creation : Nat
  valid_after : Nat
  key : WKey
  deriving DecidableEq, Repr

/-- A keyring is an ordered sequence of entries, insertion order preserved
(struct webauth_keyring; the APR array is modelled as a list). -/
abbrev Keyring := List KeyringEntry

/-- webauth_keyring_new: a fresh keyring is empty (the capacity argument only
sizes the APR array and has no observable effect). -/
def webauth_keyring_new : Keyring := []

/-- webauth_keyring_add (src/lib/keyring.c lines 50-61): builds an entry from
the creation time, valid-after time and a copy of the key, and appends it at
the end of the ring.  The timestamps are stored exactly as passed. -/
def webauth_keyring_add (ring : Keyring) (creation valid_after : Nat)
    (key : WKey) : Keyring :=
  List.append ring [⟨creation, valid_after, webauth_key_copy key⟩]

/-- Key usage selector for webauth_keyring_best_key (enum webauth_key_usage). -/
inductive KeyUsage where
  | decrypt
  | encrypt
  deriving DecidableEq, Repr

/-- One iteration of the selection loop of webauth_keyring_best_key
(src/lib/keyring.c lines 134-146): entries whose valid_after is in the
future are skipped; for encryption the running best is replaced only when
the entry's valid_after is strictly greater; for decryption the entry must
moreover not exceed the hint, and the comparison is non-strict. -/
def bestKeyStep (now hint : Nat) (usage : KeyUsage)
    (best : Option KeyringEntry) (entry : KeyringEntry) : Option KeyringEntry :=
  if entry.valid_after > now then best
  else
    match usage with
    | .encrypt =>
      match best with
      | none => some entry
      | some b => if entry.valid_after > b.valid_after then some entry else some b
    | .decrypt =>
      if hint ≥ entry.valid_after then
        match best with
        | none => some entry
        | some b =>
          if entry.valid_after ≥ b.valid_after then some entry else some b
      else best

/-- webauth_keyring_best_key (src/lib/keyring.c lines 121-154): fold the
selection loop over the ring in insertion order; WA_ERR_NOT_FOUND when no
entry was selected, otherwise the selected entry's key. -/
def webauth_keyring_best_key (now : Nat) (ring : Keyring) (usage : KeyUsage)
    (hint : Nat) : Except WaErr WKey :=
  match ring.foldl (bestKeyStep now hint usage) none with
  | none => .error .NOT_FOUND
  | some best => .ok best.key

/-- The inner comparison of the encryption branch of the best-key loop on two
entries already known to qualify: keep the running best unless the new entry
is strictly more recent. -/
def pickNewer (b entry : KeyringEntry) : KeyringEntry :=
  if entry.valid_after > b.valid_after then entry else b

/-- Spec-side rendering of the amended C2 selection rule for encryption:
among the entries whose valid_after is at or before now, take the maximum
valid_after, and return the key of the first-inserted entry attaining that
maximum (so ties between entries with equal valid_after go to the
earlier-inserted entry); fail with WA_ERR_NOT_FOUND when no entry
qualifies. -/
def bestKeyEncryptSpec (now : Nat) (ring : Keyring) : Except WaErr WKey :=
  match ring.filter (fun e => e.valid_after ≤ now) with
  | [] => .error .NOT_FOUND
  | q :: qs =>
    let m := qs.foldl (fun a e => max a e.valid_after) q.valid_after
    match (q :: qs).find? (fun e => e.valid_after = m) with
    | some e => .ok e.key
    | none => .error .NOT_FOUND

/-- Outcome trace of one call to webauth_keyring_write: the returned status,
whether the temporary file still exists when the call returns, and whether
the target path was replaced by a successful rename. -/
structure WriteOutcome where
  status : WaErr
  tempLeft : Bool
  targetReplaced : Bool
  deriving DecidableEq, Repr

/-- The temporary file template used by webauth_keyring_write
(src/lib/keyring.c line 286): the target path with a randomized suffix
appended. -/
def keyringTempName (path : List Char) : List Char := path ++ ".XXXXXX".data

/-- webauth_keyring_write (src/lib/keyring.c lines 274-326), modelled over an
oracle of step outcomes: each boolean tells whether the corresponding
external call (apr_file_mktemp, webauth_keyring_encode, apr_file_write_full,
apr_file_close, apr_file_rename) succeeds.  The control flow mirrors the C
exactly: the done label closes and removes the temporary only when the file
handle is still non-null, and the handle is set to null immediately when
apr_file_close is called, before its status is checked, so on a close
failure or a rename failure no removal happens. -/
def webauth_keyring_write_model
    (mktempOk encodeOk writeOk closeOk renameOk : Bool) : WriteOutcome :=
  if mktempOk = false then ⟨.FILE_OPENWRITE, false, false⟩
  else if encodeOk = false then ⟨.NO_MEM, false, false⟩
  else if writeOk = false then ⟨.FILE_WRITE, false, false⟩
  else if closeOk = false then ⟨.FILE_WRITE, true, false⟩
  else if renameOk = false then ⟨.FILE_WRITE, true, false⟩
  else ⟨.NONE, false, true⟩

/-- The outcome argument of webauth_keyring_auto_update
(enum webauth_kau_status). -/
inductive KauStatus where
  | kauNone
  | kauCreate
  | kauUpdate
  deriving DecidableEq, Repr

/-- new_ring (src/lib/keyring.c lines 335-350): a fresh keyring holding a
single new random key, both timestamps set to now. -/
def new_ring (now : Nat) (newKey : WKey) : Keyring :=
  webauth_keyring_add webauth_keyring_new now now newKey

/-- Result of check_ring: the status of the keyring update, the (possibly
extended) in-memory ring, and whether a rotation took place. -/
structure CheckRingResult where
  status : WaErr
  ring : Keyring
  rotated : Bool
  deriving Repr

/-- check_ring (src/lib/keyring.c lines 360-389): return WA_ERR_NONE without
touching anything as soon as some entry has valid_after + lifetime still
greater than now; otherwise append a new random key with both timestamps set
to now and rewrite the file.  The random key generation and the file write
are modelled as succeeding (their failure propagation is not at issue in the
claims). -/
def check_ring (now lifetime : Nat) (newKey : WKey) (ring : Keyring) :
    CheckRingResult :=
  if ring.any (fun e => e.valid_after + lifetime > now) then ⟨.NONE, ring, false⟩
  else ⟨.NONE, webauth_keyring_add ring now now newKey, true⟩

/-- Combined result of webauth_keyring_auto_update: the returned status, the
ring given back to the caller, the outcome, the secondary update status, and
the keyring file contents after the call. -/
structure AutoUpdateResult where
  status : WaErr
  ring : Option Keyring
  updated : KauStatus
  update_status : WaErr
  file : Option Keyring
  deriving Repr

/-- webauth_keyring_auto_update (src/lib/keyring.c lines 408-429).  The
keyring file is abstracted to an optional decoded keyring (none = the file
does not exist, giving WA_ERR_FILE_NOT_FOUND on read); writes are modelled
as succeeding.  Mirrors the C control flow: a missing file is created only
when create is set; when the read succeeds, check_ring runs only when
lifetime is positive. -/
def webauth_keyring_auto_update (now : Nat) (newKey : WKey)
    (file : Option Keyring) (create : Bool) (lifetime : Nat) :
    AutoUpdateResult :=
  match file with
  | none =>
    if create then
      let r := new_ring now newKey
      ⟨.NONE, some r, .kauCreate, .NONE, some r⟩
    else ⟨.FILE_NOT_FOUND, none, .kauNone, .NONE, none⟩
  | some r =>
    if lifetime > 0 then
      let c := check_ring now lifetime newKey r
      ⟨.NONE, some c.ring, if c.rotated then .kauUpdate else .kauNone,
        c.status, if c.rotated then some c.ring else some r⟩
    else ⟨.NONE, some r, .kauNone, .NONE, some r⟩

/-- The most recent valid-after time over the entries of a ring (the newest
key, in the sense of spec section 4.3.1). -/
def ringNewest (ring : Keyring) : Nat :=
  ring.foldl (fun a e => max a e.valid_after) 0

/-! ### Attribute stream codec

Modelled from the spec: the Codec component (spec section 4.1) is not part
of the repository snapshot.  An attribute stream is a concatenation of
records name = value ; with backslash as the escape byte before any literal
semicolon or backslash in the value.  Unsigned integers and timestamps are
emitted as ASCII decimal.  Bytes are modelled as characters. -/

/-- The character for a single decimal digit. -/
def natDigitChar (d : Nat) : Char := Char.ofNat (48 + d)

/-- Little-endian decimal digits of a positive number, by fuel ≥ n. -/
def natDigitsLE : Nat → Nat → List Nat
  | 0, _ => []
  | fuel + 1, n => if n = 0 then [] else n % 10 :: natDigitsLE fuel (n / 10)

/-- Value of a little-endian digit list. -/
def digitsLEVal : List Nat → Nat
  | [] => 0
  | d :: ds => d + 10 * digitsLEVal ds

/-- ASCII decimal rendering of a natural (most significant digit first), as
the Codec emits unsigned integers and timestamps. -/
def toDec (n : Nat) : List Char :=
  if n = 0 then [natDigitChar 0]
  else (natDigitsLE n n).reverse.map natDigitChar

/-- Parse one ASCII decimal digit. -/
def charToDigit (c : Char) : Option Nat :=
  if 48 ≤ c.toNat ∧ c.toNat ≤ 57 then some (c.toNat - 48) else none

/-- Parse a string of ASCII decimal digits; any non-digit fails. -/
def parseDigits : List Char → Option (List Nat)
  | [] => some []
  | c :: cs =>
    match charToDigit c, parseDigits cs with
    | some d, some ds => some (d :: ds)
    | _, _ => none

/-- Parse an ASCII decimal number; fails on an empty or non-digit string
(the Codec rejects a value-type mismatch with WA_ERR_CORRUPT). -/
def ofDec (l : List Char) : Option Nat :=
  if l = [] then none
  else
    match parseDigits l with
    | none => none
    | some ds => some (digitsLEVal ds.reverse)

/-- Escape a value for the attribute stream: backslash before any literal
semicolon or backslash. -/
def escapeVal : List Char → List Char
  | [] => []
  | c :: cs =>
    if c = ';' ∨ c = '\\' then '\\' :: c :: escapeVal cs else c :: escapeVal cs

/-- One encoded attribute record: name = escaped-value ; . -/
def encodeAttr (name value : List Char) : List Char :=
  name ++ '=' :: (escapeVal value ++ [';'])

/-- An encoded attribute stream: the concatenation of its records. -/
def encodeAttrs (attrs : List (List Char × List Char)) : List Char :=
  match attrs with
  | [] => []
  | (n, v) :: rest => encodeAttr n v ++ encodeAttrs rest

/-- Parse an attribute name up to the equals sign.  A semicolon or a
backslash before the equals sign is malformed framing. -/
def parseName : List Char → Option (List Char × List Char)
  | [] => none
  | c :: cs =>
    if c = '=' then some ([], cs)
    else if c = ';' ∨ c = '\\' then none
    else
      match parseName cs with
      | some (n, rest) => some (c :: n, rest)
      | none => none

/-- Parse an escaped value up to the terminating semicolon. -/
def parseValue : List Char → Option (List Char × List Char)
  | [] => none
  | c :: cs =>
    if c = ';' then some ([], cs)
    else if c = '\\' then
      match cs with
      | [] => none
      | d :: ds =>
        match parseValue ds with
        | some (v, rest) => some (d :: v, rest)
        | none => none
    else
      match parseValue cs with
      | some (v, rest) => some (c :: v, rest)
      | none => none

/-- Parse a whole attribute stream into its name-value records (with fuel;
every record consumes at least one byte, so fuel = input length always
suffices). -/
def parseAttrsF : Nat → List Char → Option (List (List Char × List Char))
  | 0, input => if input = [] then some [] else none
  | fuel + 1, input =>
    if input = [] then some []
    else
      match parseName input with
      | none => none
      | some (n, rest1) =>
        match parseValue rest1 with
        | none => none
        | some (v, rest2) =>
          match parseAttrsF fuel rest2 with
          | none => none
          | some attrs => some ((n, v) :: attrs)

/-- Parse a whole attribute stream. -/
def parseAttrs (input : List Char) : Option (List (List Char × List Char)) :=
  parseAttrsF input.length input

/-- First value bound to a name in a parsed attribute stream; attributes
beyond those a decoder asks for are ignored (spec section 4.1: forward
compatibility). -/
def lookupAttr (name : List Char) :
    List (List Char × List Char) → Option (List Char)
  | [] => none
  | (m, v) :: rest => if m = name then some v else lookupAttr name rest

/-- A name that the encoder may emit: no equals sign, no semicolon and no
backslash in the name. -/
def goodName (name : List Char) : Prop :=
  ∀ c ∈ name, c ≠ '=' ∧ c ≠ ';' ∧ c ≠ '\\'

instance (name : List Char) : Decidable (goodName name) := by
  unfold goodName
  infer_instance

/-! ### Token records

The per-kind token records (struct webauth_token_* of webauth/tokens.h,
whose header is not in the snapshot; the fields are those consulted by the
check functions of src/lib/token-encode.c and listed in spec section 4.4.1).
String attributes are optional character strings (NULL = absent; an empty
string is a present, empty value), binary data attributes likewise, and
numeric attributes are naturals where 0 means unset. -/

structure TokenApp where
  subject : Option (List Char)
  authz_subject : Option (List Char)
  session_key : Option (List Char)
  last_used : Nat
  initial_factors : Option (List Char)
  session_factors : Option (List Char)
  loa : Nat
  expiration : Nat
  deriving DecidableEq, Repr

structure TokenCred where
  subject : Option (List Char)
  typ : Option (List Char)
  service : Option (List Char)
  data : Option (List Char)
  expiration : Nat
  deriving DecidableEq, Repr

structure TokenError where
  code : Nat
  message : Option (List Char)
  deriving DecidableEq, Repr

structure TokenId where
  subject : Option (List Char)
  auth : Option (List Char)
  auth_data : Option (List Char)
  expiration : Nat
  deriving DecidableEq, Repr

structure TokenLogin where
  username : Option (List Char)
  password : Option (List Char)
  otp : Option (List Char)
  otp_type : Option (List Char)
  deriving DecidableEq, Repr

structure TokenProxy where
  subject : Option (List Char)
  typ : Option (List Char)
  webkdc_proxy : Option (List Char)
  expiration : Nat
  deriving DecidableEq, Repr

structure TokenRequest where
  typ : Option (List Char)
  auth : Option (List Char)
  proxy_type : Option (List Char)
  state : Option (List Char)
  return_url : Option (List Char)
  options : Option (List Char)
  initial_factors : Option (List Char)
  session_factors : Option (List Char)
  command : Option (List Char)
  deriving DecidableEq, Repr

structure TokenWebkdcFactor where
  subject : Option (List Char)
  initial_factors : Option (List Char)
  session_factors : Option (List Char)
  expiration : Nat
  deriving DecidableEq, Repr

structure TokenWebkdcProxy where
  subject : Option (List Char)
  proxy_type : Option (List Char)
  proxy_subject : Option (List Char)
  expiration : Nat
  deriving DecidableEq, Repr

structure TokenWebkdcService where
  subject : Option (List Char)
  session_key : Option (List Char)
  expiration : Nat
  deriving DecidableEq, Repr

/-- The discriminated union of token kinds (struct webauth_token). -/
inductive Token where
  | app : TokenApp → Token
  | cred : TokenCred → Token
  | error : TokenError → Token
  | id : TokenId → Token
  | login : TokenLogin → Token
  | proxy : TokenProxy → Token
  | request : TokenRequest → Token
  | webkdc_factor : TokenWebkdcFactor → Token
  | webkdc_proxy : TokenWebkdcProxy → Token
  | webkdc_service : TokenWebkdcService → Token
  deriving DecidableEq, Repr

/-- The token kinds; the sentinel WA_TOKEN_ANY of the decoding interface is
modelled as Option TokenKind (none = any) where it is accepted. -/
inductive TokenKind where
  | app
  | cred
  | error
  | id
  | login
  | proxy
  | request
  | webkdc_factor
  | webkdc_proxy
  | webkdc_service
  deriving DecidableEq, Repr

/-- The kind of a token record. -/
def kindOf : Token → TokenKind
  | .app _ => .app
  | .cred _ => .cred
  | .error _ => .error
  | .id _ => .id
  | .login _ => .login
  | .proxy _ => .proxy
  | .request _ => .request
  | .webkdc_factor _ => .webkdc_factor
  | .webkdc_proxy _ => .webkdc_proxy
  | .webkdc_service _ => .webkdc_service

/-- The wire name of a token kind (the token_name table of
src/lib/token-encode.c lines 33-45). -/
def kindName : TokenKind → List Char
  | .app => "app".data
  | .cred => "cred".data
  | .error => "error".data
  | .id => "id".data
  | .login => "login".data
  | .proxy => "proxy".data
  | .request => "req".data
  | .webkdc_factor => "webkdc-factor".data
  | .webkdc_proxy => "webkdc-proxy".data
  | .webkdc_service => "webkdc-service".data

/-- Whether the token is being encoded or decoded (enum encode_mode of
src/lib/token-encode.c line 52); the expired-token check runs only when
decoding. -/
inductive EncodeMode where
  | encode
  | decode
  deriving DecidableEq, Repr

/-- Sequencing of status-returning checks: the first failure wins. -/
def waSeq (s rest : WaErr) : WaErr :=
  match s with
  | .NONE => rest
  | e => e

/-- check_expiration (src/lib/token-encode.c lines 231-244): strictly past
expirations are expired; an expiration equal to now is not. -/
def check_expiration (now expiration : Nat) : WaErr :=
  if expiration < now then .TOKEN_EXPIRED else .NONE

/-- The CHECK_EXP macro (src/lib/token-encode.c lines 117-126): CHECK_NUM
first (a zero expiration is a missing attribute, WA_ERR_CORRUPT), then the
expiration check, in DECODE mode only. -/
def checkExp (now : Nat) (mode : EncodeMode) (expiration : Nat) : WaErr :=
  if expiration = 0 then .CORRUPT
  else if mode = .decode then check_expiration now expiration
  else .NONE

/-- A binary data attribute fails CHECK_DATA when it is missing or empty. -/
def dataBad (v : Option (List Char)) : Prop := v = none ∨ v = some []

instance (v : Option (List Char)) : Decidable (dataBad v) := by
  unfold dataBad
  infer_instance

/-- check_app (src/lib/token-encode.c lines 313-329). -/
def check_app (now : Nat) (mode : EncodeMode) (a : TokenApp) : WaErr :=
  waSeq (checkExp now mode a.expiration)
    (match a.session_key with
     | none => if a.subject = none then .CORRUPT else .NONE
     | some _ =>
       if a.subject ≠ none then .CORRUPT
       else if a.authz_subject ≠ none then .CORRUPT
       else if a.last_used ≠ 0 then .CORRUPT
       else if a.initial_factors ≠ none then .CORRUPT
       else if a.session_factors ≠ none then .CORRUPT
       else if a.loa ≠ 0 then .CORRUPT
       else .NONE)

/-- check_cred (src/lib/token-encode.c lines 335-345), including
check_cred_type: the credential type must be the string krb5. -/
def check_cred (now : Nat) (mode : EncodeMode) (c : TokenCred) : WaErr :=
  if c.subject = none then .CORRUPT
  else if c.typ = none then .CORRUPT
  else if c.service = none then .CORRUPT
  else if dataBad c.data then .CORRUPT
  else waSeq (checkExp now mode c.expiration)
    (if c.typ = some "krb5".data then .NONE else .CORRUPT)

/-- check_error (src/lib/token-encode.c lines 351-359); no expiration
check in either mode. -/
def check_error (_now : Nat) (_mode : EncodeMode) (e : TokenError) : WaErr :=
  if e.code = 0 then .CORRUPT
  else if e.message = none then .CORRUPT
  else .NONE

/-- check_id (src/lib/token-encode.c lines 365-376), including
check_subject_auth: auth must be krb5 or webkdc, a webkdc auth requires a
subject, a krb5 auth requires auth data. -/
def check_id (now : Nat) (mode : EncodeMode) (i : TokenId) : WaErr :=
  if i.auth = none then .CORRUPT
  else waSeq (checkExp now mode i.expiration)
    (if i.auth = some "webkdc".data ∧ i.subject = none then .CORRUPT
     else if i.auth = some "krb5".data ∧ dataBad i.auth_data then .CORRUPT
     else if i.auth = some "krb5".data ∨ i.auth = some "webkdc".data then .NONE
     else .CORRUPT)

/-- check_login (src/lib/token-encode.c lines 382-401): username required;
exactly one of password and otp; otp_type forbidden with password.  The
mode is not consulted. -/
def check_login (_now : Nat) (_mode : EncodeMode) (l : TokenLogin) : WaErr :=
  if l.username = none then .CORRUPT
  else if l.password = none ∧ l.otp = none then .CORRUPT
  else if l.password ≠ none ∧ l.otp ≠ none then .CORRUPT
  else if l.password ≠ none ∧ l.otp_type ≠ none then .CORRUPT
  else .NONE

/-- check_proxy (src/lib/token-encode.c lines 407-416), including
check_proxy_type: the proxy type must be krb5. -/
def check_proxy (now : Nat) (mode : EncodeMode) (p : TokenProxy) : WaErr :=
  if p.subject = none then .CORRUPT
  else if p.typ = none then .CORRUPT
  else if dataBad p.webkdc_proxy then .CORRUPT
  else waSeq (checkExp now mode p.expiration)
    (if p.typ = some "krb5".data then .NONE else .CORRUPT)

/-- check_request (src/lib/token-encode.c lines 422-463): a command request
forbids every other field; otherwise type and return_url are required and
the requested type selects between a subject-auth and a proxy-type check. -/
def check_request (_now : Nat) (_mode : EncodeMode) (r : TokenRequest) : WaErr :=
  match r.command with
  | some _ =>
    if r.typ ≠ none then .CORRUPT
    else if r.auth ≠ none then .CORRUPT
    else if r.proxy_type ≠ none then .CORRUPT
    else if r.state ≠ none then .CORRUPT
    else if r.return_url ≠ none then .CORRUPT
    else if r.options ≠ none then .CORRUPT
    else if r.initial_factors ≠ none then .CORRUPT
    else if r.session_factors ≠ none then .CORRUPT
    else .NONE
  | none =>
    if r.typ = none then .CORRUPT
    else if r.return_url = none then .CORRUPT
    else if r.typ = some "id".data then
      if r.auth = none then .CORRUPT
      else if r.auth = some "krb5".data ∨ r.auth = some "webkdc".data then .NONE
      else .CORRUPT
    else if r.typ = some "proxy".data then
      if r.proxy_type = none then .CORRUPT
      else if r.proxy_type = some "krb5".data then .NONE
      else .CORRUPT
    else .CORRUPT

/-- check_webkdc_factor (src/lib/token-encode.c lines 469-483): subject and
expiration required, and at least one of the factor lists. -/
def check_webkdc_factor (now : Nat) (mode : EncodeMode)
    (w : TokenWebkdcFactor) : WaErr :=
  if w.subject = none then .CORRUPT
  else waSeq (checkExp now mode w.expiration)
    (if w.initial_factors = none ∧ w.session_factors = none then .CORRUPT
     else .NONE)

/-- check_webkdc_proxy (src/lib/token-encode.c lines 489-507): subject,
proxy_type and proxy_subject required; the proxy type must be krb5, remuser
or otp. -/
def check_webkdc_proxy (now : Nat) (mode : EncodeMode)
    (w : TokenWebkdcProxy) : WaErr :=
  if w.subject = none then .CORRUPT
  else if w.proxy_type = none then .CORRUPT
  else if w.proxy_subject = none then .CORRUPT
  else waSeq (checkExp now mode w.expiration)
    (if w.proxy_type = some "krb5".data ∨ w.proxy_type = some "remuser".data
        ∨ w.proxy_type = some "otp".data then .NONE
     else .CORRUPT)

/-- check_webkdc_service (src/lib/token-encode.c lines 513-522): subject,
session key data and expiration required. -/
def check_webkdc_service (now : Nat) (mode : EncodeMode)
    (w : TokenWebkdcService) : WaErr :=
  if w.subject = none then .CORRUPT
  else if dataBad w.session_key then .CORRUPT
  else waSeq (checkExp now mode w.expiration) .NONE

/-- check_token (src/lib/token-encode.c lines 530-562): dispatch on the
token kind. -/
def check_token (now : Nat) (mode : EncodeMode) : Token → WaErr
  | .app a => check_app now mode a
  | .cred c => check_cred now mode c
  | .error e => check_error now mode e
  | .id i => check_id now mode i
  | .login l => check_login now mode l
  | .proxy p => check_proxy now mode p
  | .request r => check_request now mode r
  | .webkdc_factor w => check_webkdc_factor now mode w
  | .webkdc_proxy w => check_webkdc_proxy now mode w
  | .webkdc_service w => check_webkdc_service now mode w

/-- The expiration attribute of a token record, for the kinds that carry
one; error, login and request tokens carry none. -/
def tokenExpiration : Token → Option Nat
  | .app a => some a.expiration
  | .cred c => some c.expiration
  | .id i => some i.expiration
  | .proxy p => some p.expiration
  | .webkdc_factor w => some w.expiration
  | .webkdc_proxy w => some w.expiration
  | .webkdc_service w => some w.expiration
  | _ => none

/-! ### Token attribute encoding

Modelled from the spec: the per-kind encoding rule tables
(wai_token_*_encoding) are not in the snapshot.  Each kind maps its fields
to named attributes (spec sections 4.1 and 9); absent optional strings and
zero numbers are omitted, and the kind itself travels in an attribute (the
names below stand in for the wire names, which the snapshot does not fix,
other than the kind names of the token_name table). -/

/-- Emit an optional string or data attribute (omitted when absent). -/
def emitStr (name : List Char) (v : Option (List Char)) :
    List (List Char × List Char) :=
  match v with
  | none => []
  | some s => [(name, s)]

/-- Emit a numeric attribute (omitted when zero). -/
def emitNum (name : List Char) (n : Nat) : List (List Char × List Char) :=
  if n = 0 then [] else [(name, toDec n)]

/-- Read a numeric attribute back: absent means zero, a present value must
parse as decimal. -/
def getNum (name : List Char) (attrs : List (List Char × List Char)) :
    Option Nat :=
  match lookupAttr name attrs with
  | none => some 0
  | some s => ofDec s

/-- First-some combinator used to state lookup laws over emitted attribute
blocks. -/
def orDefault (v d : Option (List Char)) : Option (List Char) :=
  match v with
  | some s => some s
  | none => d

/-- The attribute records of a token, per kind. -/
def tokenToAttrs : Token → List (List Char × List Char)
  | .app a =>
    ("t".data, kindName .app)
      :: (emitStr "s".data a.subject ++ (emitStr "sz".data a.authz_subject
        ++ (emitStr "k".data a.session_key ++ (emitNum "lt".data a.last_used
        ++ (emitStr "ia".data a.initial_factors ++ (emitStr "sn".data a.session_factors
        ++ (emitNum "loa".data a.loa ++ emitNum "et".data a.expiration)))))))
  | .cred c =>
    ("t".data, kindName .cred)
      :: (emitStr "s".data c.subject ++ (emitStr "crt".data c.typ
        ++ (emitStr "crs".data c.service ++ (emitStr "crd".data c.data
        ++ emitNum "et".data c.expiration))))
  | .error e =>
    ("t".data, kindName .error)
      :: (emitNum "ec".data e.code ++ emitStr "em".data e.message)
  | .id i =>
    ("t".data, kindName .id)
      :: (emitStr "s".data i.subject ++ (emitStr "sat".data i.auth
        ++ (emitStr "sad".data i.auth_data ++ emitNum "et".data i.expiration)))
  | .login l =>
    ("t".data, kindName .login)
      :: (emitStr "u".data l.username ++ (emitStr "p".data l.password
        ++ (emitStr "otp".data l.otp ++ emitStr "ott".data l.otp_type)))
  | .proxy p =>
    ("t".data, kindName .proxy)
      :: (emitStr "s".data p.subject ++ (emitStr "pt".data p.typ
        ++ (emitStr "wt".data p.webkdc_proxy ++ emitNum "et".data p.expiration)))
  | .request r =>
    ("t".data, kindName .request)
      :: (emitStr "rtt".data r.typ ++ (emitStr "sat".data r.auth
        ++ (emitStr "pt".data r.proxy_type ++ (emitStr "as".data r.state
        ++ (emitStr "ru".data r.return_url ++ (emitStr "ro".data r.options
        ++ (emitStr "ia".data r.initial_factors ++ (emitStr "sn".data r.session_factors
        ++ emitStr "cmd".data r.command))))))))
  | .webkdc_factor w =>
    ("t".data, kindName .webkdc_factor)
      :: (emitStr "s".data w.subject ++ (emitStr "ia".data w.initial_factors
        ++ (emitStr "sn".data w.session_factors ++ emitNum "et".data w.expiration)))
  | .webkdc_proxy w =>
    ("t".data, kindName .webkdc_proxy)
      :: (emitStr "s".data w.subject ++ (emitStr "pt".data w.proxy_type
        ++ (emitStr "ps".data w.proxy_subject ++ emitNum "et".data w.expiration)))
  | .webkdc_service w =>
    ("t".data, kindName .webkdc_service)
      :: (emitStr "s".data w.subject ++ (emitStr "k".data w.session_key
        ++ emitNum "et".data w.expiration))

/-- Rebuild an app token from parsed attributes. -/
def appFromAttrs (attrs : List (List Char × List Char)) : Option Token :=
  match getNum "lt".data attrs, getNum "loa".data attrs, getNum "et".data attrs with
  | some lt, some loa, some et =>
    some (.app ⟨lookupAttr "s".data attrs, lookupAttr "sz".data attrs,
      lookupAttr "k".data attrs, lt, lookupAttr "ia".data attrs,
      lookupAttr "sn".data attrs, loa, et⟩)
  | _, _, _ => none

/-- Rebuild a cred token from parsed attributes. -/
def credFromAttrs (attrs : List (List Char × List Char)) : Option Token :=
  match getNum "et".data attrs with
  | some et =>
    some (.cred ⟨lookupAttr "s".data attrs, lookupAttr "crt".data attrs,
      lookupAttr "crs".data attrs, lookupAttr "crd".data attrs, et⟩)
  | none => none

/-- Rebuild an error token from parsed attributes. -/
def errorFromAttrs (attrs : List (List Char × List Char)) : Option Token :=
  match getNum "ec".data attrs with
  | some ec => some (.error ⟨ec, lookupAttr "em".data attrs⟩)
  | none => none

/-- Rebuild an id token from parsed attributes. -/
def idFromAttrs (attrs : List (List Char × List Char)) : Option Token :=
  match getNum "et".data attrs with
  | some et =>
    some (.id ⟨lookupAttr "s".data attrs, lookupAttr "sat".data attrs,
      lookupAttr "sad".data attrs, et⟩)
  | none => none

/-- Rebuild a login token from parsed attributes. -/
def loginFromAttrs (attrs : List (List Char × List Char)) : Option Token :=
  some (.login ⟨lookupAttr "u".data attrs, lookupAttr "p".data attrs,
    lookupAttr "otp".data attrs, lookupAttr "ott".data attrs⟩)

/-- Rebuild a proxy token from parsed attributes. -/
def proxyFromAttrs (attrs : List (List Char × List Char)) : Option Token :=
  match getNum "et".data attrs with
  | some et =>
    some (.proxy ⟨lookupAttr "s".data attrs, lookupAttr "pt".data attrs,
      lookupAttr "wt".data attrs, et⟩)
  | none => none

/-- Rebuild a request token from parsed attributes. -/
def requestFromAttrs (attrs : List (List Char × List Char)) : Option Token :=
  some (.request ⟨lookupAttr "rtt".data attrs, lookupAttr "sat".data attrs,
    lookupAttr "pt".data attrs, lookupAttr "as".data attrs,
    lookupAttr "ru".data attrs, lookupAttr "ro".data attrs,
    lookupAttr "ia".data attrs, lookupAttr "sn".data attrs,
    lookupAttr "cmd".data attrs⟩)

/-- Rebuild a webkdc-factor token from parsed attributes. -/
def webkdcFactorFromAttrs (attrs : List (List Char × List Char)) :
    Option Token :=
  match getNum "et".data attrs with
  | some et =>
    some (.webkdc_factor ⟨lookupAttr "s".data attrs,
      lookupAttr "ia".data attrs, lookupAttr "sn".data attrs, et⟩)
  | none => none

/-- Rebuild a webkdc-proxy token from parsed attributes. -/
def webkdcProxyFromAttrs (attrs : List (List Char × List Char)) :
    Option Token :=
  match getNum "et".data attrs with
  | some et =>
    some (.webkdc_proxy ⟨lookupAttr "s".data attrs,
      lookupAttr "pt".data attrs, lookupAttr "ps".data attrs, et⟩)
  | none => none

/-- Rebuild a webkdc-service token from parsed attributes. -/
def webkdcServiceFromAttrs (attrs : List (List Char × List Char)) :
    Option Token :=
  match getNum "et".data attrs with
  | some et =>
    some (.webkdc_service ⟨lookupAttr "s".data attrs,
      lookupAttr "k".data attrs, et⟩)
  | none => none

/-- Rebuild a token from parsed attributes; the kind is determined by the
type attribute inside the stream (spec section 4.4.3 step 3). -/
def tokenFromAttrs (attrs : List (List Char × List Char)) : Option Token :=
  match lookupAttr "t".data attrs with
  | none => none
  | some tn =>
    if tn = kindName .app then appFromAttrs attrs
    else if tn = kindName .cred then credFromAttrs attrs
    else if tn = kindName .error then errorFromAttrs attrs
    else if tn = kindName .id then idFromAttrs attrs
    else if tn = kindName .login then loginFromAttrs attrs
    else if tn = kindName .proxy then proxyFromAttrs attrs
    else if tn = kindName .request then requestFromAttrs attrs
    else if tn = kindName .webkdc_factor then webkdcFactorFromAttrs attrs
    else if tn = kindName .webkdc_proxy then webkdcProxyFromAttrs attrs
    else if tn = kindName .webkdc_service then webkdcServiceFromAttrs attrs
    else none

/-- wai_encode_token: serialize a token's attributes to the wire attribute
stream (Codec, modelled from spec section 4.1). -/
def wai_encode_token (t : Token) : List Char :=
  encodeAttrs (tokenToAttrs t)

/-- wai_decode_token: parse the wire attribute stream and rebuild the typed
record (Codec, modelled from spec section 4.1); any malformation is a
failure (WA_ERR_CORRUPT at the call sites). -/
def wai_decode_token (input : List Char) : Option Token :=
  match parseAttrs input with
  | none => none
  | some attrs => tokenFromAttrs attrs

/-! ### Crypto layer

Modelled from the spec: lib/token-crypt.c is not in the snapshot.  The
authenticated-encryption envelope (spec section 6.2) is modelled
symbolically: the AES-CBC ciphertext is a constructor holding the key, the
nonce and the plaintext (so decryption is exact for the right key and fails
for any other), and the HMAC tag is a constructor holding the key and the
ciphertext (so tag comparison succeeds exactly for the authenticating key).
The key hint is advisory only and the decoder tries every key, so the model
keeps it but never relies on it. -/

/-- The symbolic AES-CBC ciphertext body. -/
inductive SymCipher where
  | enc (key : WKey) (nonce : List Nat) (plaintext : List Char)
  deriving DecidableEq, Repr

/-- The symbolic HMAC-SHA1 tag over the envelope. -/
inductive SymTag where
  | mac (key : WKey) (body : SymCipher)
  deriving DecidableEq, Repr

/-- The raw (binary) encrypted token: key hint, ciphertext body and tag
(the nonce lives inside the symbolic body). -/
structure RawToken where
  keyHint : List Char
  body : SymCipher
  tag : SymTag
  deriving DecidableEq, Repr

/-- The advisory key hint (a short digest of the key material, modelled as
an injective fingerprint). -/
def keyHintOf (key : WKey) : List Char := key.material

/-- Attempted decryption under one key: verify the tag first (encrypt-then-
MAC), then open the body; both succeed exactly for the sealing key. -/
def decryptWithKey (key : WKey) (r : RawToken) : Option (List Char) :=
  if r.tag = .mac key r.body then
    match r.body with
    | .enc k _ plaintext => if k = key then some plaintext else none
  else none

/-- Modelled from the spec: webauth_token_encrypt (spec sections 4.4.2 and
6.2).  Select the encrypting key with best_key(ENCRYPT, 0); a key-selection
failure (empty keyring or no mature key) surfaces as WA_ERR_BAD_KEY per
spec section 4.4.2 step 1.  The fresh random nonce is a parameter. -/
def webauth_token_encrypt (now : Nat) (nonce : List Nat) (input : List Char)
    (ring : Keyring) : Except WaErr RawToken :=
  match webauth_keyring_best_key now ring .encrypt 0 with
  | .error _ => .error .BAD_KEY
  | .ok key =>
    .ok ⟨keyHintOf key, .enc key nonce input, .mac key (.enc key nonce input)⟩

/-- Modelled from the spec: webauth_token_decrypt (spec section 4.4.3 step
2).  Try the keyring's keys until one authenticates; WA_ERR_BAD_HMAC only
when every key fails. -/
def webauth_token_decrypt (r : RawToken) (ring : Keyring) :
    Except WaErr (List Char) :=
  match ring.findSome? (fun e => decryptWithKey e.key r) with
  | some plaintext => .ok plaintext
  | none => .error .BAD_HMAC

/-- A base64-wrapped token (spec section 6.3).  The apr base64 routines are
an external library; the wrapping is modelled as an injective tagging whose
decode inverts encode. -/
inductive WireToken where
  | b64 (raw : RawToken)
  deriving DecidableEq, Repr

/-! ### Token encode and decode pipelines (src/lib/token-encode.c) -/

/-- webauth_token_encode_raw (src/lib/token-encode.c lines 658-684): fail
WA_ERR_BAD_KEY on a null keyring, validate in ENCODE mode, serialize,
encrypt.  The token output parameter stays null on every failure. -/
def webauth_token_encode_raw (now : Nat) (nonce : List Nat) (data : Token)
    (ring : Option Keyring) : WaErr × Option RawToken :=
  match ring with
  | none => (.BAD_KEY, none)
  | some r =>
    match check_token now .encode data with
    | .NONE =>
      match webauth_token_encrypt now nonce (wai_encode_token data) r with
      | .error e => (e, none)
      | .ok raw => (.NONE, some raw)
    | e => (e, none)

/-- webauth_token_encode (src/lib/token-encode.c lines 693-719): encode the
binary form, then base64-wrap it; the token output stays null on failure. -/
def webauth_token_encode (now : Nat) (nonce : List Nat) (data : Token)
    (ring : Option Keyring) : WaErr × Option WireToken :=
  match webauth_token_encode_raw now nonce data ring with
  | (.NONE, some raw) => (.NONE, some (.b64 raw))
  | (e, _) => (e, none)

/-- webauth_token_decode_raw (src/lib/token-encode.c lines 572-621):
decrypt with the keyring, parse the attributes, compare the decoded kind
with the expected kind (none = WA_TOKEN_ANY), then validate in DECODE mode.
The decoded output parameter stays null on every failure. -/
def webauth_token_decode_raw (now : Nat) (expected : Option TokenKind)
    (r : RawToken) (ring : Keyring) : WaErr × Option Token :=
  match webauth_token_decrypt r ring with
  | .error e => (e, none)
  | .ok attrs =>
    match wai_decode_token attrs with
    | none => (.CORRUPT, none)
    | some out =>
      match expected with
      | some k =>
        if k ≠ kindOf out then (.CORRUPT, none)
        else
          match check_token now .decode out with
          | .NONE => (.NONE, some out)
          | e => (e, none)
      | none =>
        match check_token now .decode out with
        | .NONE => (.NONE, some out)
        | e => (e, none)

/-- webauth_token_decode (src/lib/token-encode.c lines 631-648): base64
unwrap and decode. -/
def webauth_token_decode (now : Nat) (expected : Option TokenKind)
    (token : WireToken) (ring : Keyring) : WaErr × Option Token :=
  match token with
  | .b64 raw => webauth_token_decode_raw now expected raw ring

/-! ### Keyring file decoding (src/lib/keyring.c) -/

/-- One entry of the decoded keyring file (struct wai_keyring_entry of
lib/internal.h; fields per spec section 6.1). -/
structure WaiKeyringEntryData where
  creation : Nat
  valid_after : Nat
  key_type : Nat
  key : List Char
  deriving DecidableEq, Repr

/-- The decoded keyring file (struct wai_keyring): format version and
entries. -/
structure WaiKeyring where
  version : Nat
  entries : List WaiKeyringEntryData
  deriving DecidableEq, Repr

/-- Read a required numeric attribute: missing or malformed is a decode
failure. -/
def getNumReq (name : List Char) (attrs : List (List Char × List Char)) :
    Option Nat :=
  match lookupAttr name attrs with
  | none => none
  | some s => ofDec s

/-- Read back entry number i of the keyring attribute stream: the
index-suffixed attributes ct<i>, va<i>, kt<i>, kd<i> (spec section 6.1). -/
def keyringEntryFromAttrs (attrs : List (List Char × List Char)) (i : Nat) :
    Option WaiKeyringEntryData :=
  match getNumReq ("ct".data ++ toDec i) attrs,
      getNumReq ("va".data ++ toDec i) attrs,
      getNumReq ("kt".data ++ toDec i) attrs,
      lookupAttr ("kd".data ++ toDec i) attrs with
  | some ct, some va, some kt, some kd => some ⟨ct, va, kt, kd⟩
  | _, _, _, _ => none

/-- Read back the keyring entries numbered i, i+1, ..., i+k-1. -/
def readEntriesFrom (attrs : List (List Char × List Char)) :
    Nat → Nat → Option (List WaiKeyringEntryData)
  | _, 0 => some []
  | i, k + 1 =>
    match keyringEntryFromAttrs attrs i, readEntriesFrom attrs (i + 1) k with
    | some e, some rest => some (e :: rest)
    | _, _ => none

/-- Modelled from the spec: webauth_decode applied to the
wai_keyring_encoding rule table (the generic codec of lib/encoding.c is not
in the snapshot; the rules are spec section 6.1): parse the attribute
stream, read the version v and the count n, then the n index-suffixed
entries; unknown attributes are ignored; any missing or malformed required
attribute fails. -/
def wai_keyring_decode (input : List Char) : Option WaiKeyring :=
  match parseAttrs input with
  | none => none
  | some attrs =>
    match getNumReq "v".data attrs, getNumReq "n".data attrs with
    | some v, some n =>
      match readEntriesFrom attrs 0 n with
      | some entries => some ⟨v, entries⟩
      | none => none
    | _, _ => none

/-- The per-entry reconstruction loop of webauth_keyring_decode
(src/lib/keyring.c lines 192-204): each entry is turned into a key through
webauth_key_create and appended; the first failure aborts the whole decode
with the output still null. -/
def keyringFromData : List WaiKeyringEntryData → Keyring → WaErr × Option Keyring
  | [], ring => (.NONE, some ring)
  | e :: rest, ring =>
    match webauth_key_create e.key_type e.key with
    | .error s => (s, none)
    | .ok key =>
      keyringFromData rest (webauth_keyring_add ring e.creation e.valid_after key)

/-- webauth_keyring_decode (src/lib/keyring.c lines 161-207): decode the
attribute stream, reject any version other than 1 with WA_ERR_FILE_VERSION,
then rebuild the entries; the output parameter stays null on every
failure. -/
def webauth_keyring_decode (input : List Char) : WaErr × Option Keyring :=
  match wai_keyring_decode input with
  | none => (.CORRUPT, none)
  | some data =>
    if data.version ≠ 1 then (.FILE_VERSION, none)
    else keyringFromData data.entries webauth_keyring_new

/-! ## Theorems -/

/-! ### Best-key selection (C2) -/

theorem foldl_step_encrypt_some (now hint : Nat) (l : List KeyringEntry)
    (b : KeyringEntry) :
    l.foldl (bestKeyStep now hint .encrypt) (some b)
      = some ((l.filter (fun e => e.valid_after ≤ now)).foldl pickNewer b) := by
  induction l generalizing b with
  | nil => rfl
  | cons e l ih =>
    by_cases h : e.valid_after ≤ now
    · have hstep : bestKeyStep now hint .encrypt (some b) e = some (pickNewer b e) := by
        simp only [bestKeyStep, pickNewer, Nat.not_lt.mpr h, if_false, gt_iff_lt]
        split <;> rfl
      simp [List.foldl_cons, hstep, List.filter_cons, h, ih]
    · have hstep : bestKeyStep now hint .encrypt (some b) e = some b := by
        simp [bestKeyStep, Nat.lt_of_not_le h]
      simp [List.foldl_cons, hstep, List.filter_cons, h, ih]

theorem foldl_step_encrypt_none (now hint : Nat) (l : List KeyringEntry) :
    l.foldl (bestKeyStep now hint .encrypt) none
      = match l.filter (fun e => e.valid_after ≤ now) with
        | [] => none
        | q :: qs => some (qs.foldl pickNewer q) := by
  induction l with
  | nil => rfl
  | cons e l ih =>
    by_cases h : e.valid_after ≤ now
    · have hstep : bestKeyStep now hint .encrypt none e = some e := by
        simp [bestKeyStep, Nat.not_lt.mpr h]
      simp [List.foldl_cons, hstep, List.filter_cons, h,
        foldl_step_encrypt_some]
    · have hstep : bestKeyStep now hint .encrypt none e = none := by
        simp [bestKeyStep, Nat.lt_of_not_le h]
      simp [List.foldl_cons, hstep, List.filter_cons, h, ih]

theorem foldl_pickNewer_va (l : List KeyringEntry) (b : KeyringEntry) :
    (l.foldl pickNewer b).valid_after
      = l.foldl (fun a e => max a e.valid_after) b.valid_after := by
  induction l generalizing b with
  | nil => rfl
  | cons e l ih =>
    simp only [List.foldl_cons, ih]
    congr 1
    simp [pickNewer]
    split <;> omega

theorem foldl_pickNewer_mem (l : List KeyringEntry) (b : KeyringEntry) :
    l.foldl pickNewer b ∈ b :: l := by
  induction l generalizing b with
  | nil => simp
  | cons e l ih =>
    simp only [List.foldl_cons]
    have := ih (pickNewer b e)
    rcases List.mem_cons.mp this with h | h
    · rw [h]
      unfold pickNewer
      split <;> simp
    · simp [h]

theorem foldl_max_le (l : List KeyringEntry) (i : Nat) :
    i ≤ l.foldl (fun a e => max a e.valid_after) i := by
  induction l generalizing i with
  | nil => simp
  | cons e l ih =>
    simp only [List.foldl_cons]
    exact le_trans (Nat.le_max_left _ _) (ih _)

theorem foldl_max_bound (l : List KeyringEntry) (i : Nat) (x : KeyringEntry)
    (hx : x ∈ l) : x.valid_after ≤ l.foldl (fun a e => max a e.valid_after) i := by
  induction l generalizing i with
  | nil => simp at hx
  | cons e l ih =>
    simp only [List.foldl_cons]
    rcases List.mem_cons.mp hx with h | h
    · subst h
      exact le_trans (Nat.le_max_right _ _) (foldl_max_le _ _)
    · exact ih _ h

theorem firstMax_find (q : KeyringEntry) (qs : List KeyringEntry) :
    (q :: qs).find?
        (fun e => e.valid_after
          = qs.foldl (fun a e => max a e.valid_after) q.valid_after)
      = some (qs.foldl pickNewer q) := by
  induction qs using List.reverseRecOn with
  | nil => simp
  | append_singleton l e ih =>
    rw [List.foldl_append, List.foldl_append]
    simp only [List.foldl_cons, List.foldl_nil]
    set B := l.foldl pickNewer q with hB
    set m := l.foldl (fun a e => max a e.valid_after) q.valid_after with hm
    have hBva : B.valid_after = m := foldl_pickNewer_va l q
    by_cases hgt : e.valid_after > B.valid_after
    · have hmax : max m e.valid_after = e.valid_after := by omega
      simp only [hmax]
      have hpick : pickNewer B e = e := by simp [pickNewer, hgt]
      rw [hpick]
      have hcons : q :: (l ++ [e]) = (q :: l) ++ [e] := by simp
      rw [hcons, List.find?_append]
      have hnone : (q :: l).find? (fun x => x.valid_after = e.valid_after) = none := by
        apply List.find?_eq_none.mpr
        intro x hx
        have hle : x.valid_after ≤ m := by
          rcases List.mem_cons.mp hx with h | h
          · subst h; exact foldl_max_le _ _
          · exact foldl_max_bound _ _ _ h
        simp only [decide_eq_true_eq]
        omega
      rw [hnone]
      simp
    · have hmax : max m e.valid_after = m := by omega
      simp only [hmax]
      have hpick : pickNewer B e = B := by simp [pickNewer, hgt]
      rw [hpick]
      have hcons : q :: (l ++ [e]) = (q :: l) ++ [e] := by simp
      rw [hcons, List.find?_append, ih]
      simp

/-- C2 counterexample: two entries with the same valid_after 5, both mature
at now = 10.  The claim says the later-inserted entry (key material [2])
wins the tie; the code returns the earlier-inserted entry's key (material
[1]), because the encryption branch replaces the running best only on a
strictly greater valid_after. -/
theorem best_key_encrypt_tie_counterexample :
    webauth_keyring_best_key 10
        [⟨0, 5, ⟨1, ['a']⟩⟩, ⟨0, 5, ⟨1, ['b']⟩⟩] .encrypt 0
      = .ok ⟨1, ['a']⟩
    ∧ (⟨1, ['a']⟩ : WKey) ≠ ⟨1, ['b']⟩ := by
  refine ⟨rfl, ?_⟩
  decide

/-- C2 amended: for every keyring, every current time and every hint (the
hint is ignored for encryption), best_key with usage ENCRYPT behaves exactly
as bestKeyEncryptSpec: it considers exactly the entries whose valid_after is
at or before now, returns the key of the entry with the maximum valid_after
among them with ties between equal valid_after values broken in favor of the
earlier-inserted entry, and fails with WA_ERR_NOT_FOUND when no entry
qualifies. -/
theorem best_key_encrypt_matches_spec (now hint : Nat) (ring : Keyring) :
    webauth_keyring_best_key now ring .encrypt hint
      = bestKeyEncryptSpec now ring := by
  unfold webauth_keyring_best_key bestKeyEncryptSpec
  rw [foldl_step_encrypt_none]
  cases hfil : List.filter (fun e => decide (e.valid_after ≤ now)) ring with
  | nil => rfl
  | cons q qs =>
    simp only
    rw [firstMax_find]

/-! ### Keyring add (C3) -/

/-- Helper fact for the add operation: the
creation and valid_after timestamps are stored exactly as passed — zero
included — and a content-equal copy of the key is appended at the end of
the ring. -/
theorem keyring_add_appends_unchanged (ring : Keyring)
    (creation valid_after : Nat) (key : WKey) :
    webauth_keyring_add ring creation valid_after key
      = ring ++ [⟨creation, valid_after, ⟨key.typ, key.material⟩⟩] := rfl

/-- C3 failing input, evaluated: adding a key with both timestamps zero to
an empty ring stores the literal zeros; the entry differs from the entry the
claim (and the function's own comment block, src/lib/keyring.c lines 44-48)
prescribes for any positive current time, here 1000. -/
theorem keyring_add_zero_timestamps_not_substituted :
    webauth_keyring_add [] 0 0 ⟨1, ['k']⟩ = [⟨0, 0, ⟨1, ['k']⟩⟩]
    ∧ ([⟨0, 0, ⟨1, ['k']⟩⟩] : Keyring) ≠ [⟨1000, 1000, ⟨1, ['k']⟩⟩] := by
  refine ⟨rfl, ?_⟩
  decide

/-! ### Keyring write (C5) -/

/-- C5 counterexample: every external step succeeds except the final rename
(the input true true true true false).  The call returns WA_ERR_FILE_WRITE
— a failure after the temporary file was opened — yet the temporary file is
left behind, contradicting the claim that on every such failure path the
temporary is removed before returning. -/
theorem keyring_write_rename_failure_leaves_temp :
    webauth_keyring_write_model true true true true false
      = ⟨.FILE_WRITE, true, false⟩ := rfl

/-- C5 amended: webauth_keyring_write serializes to a temporary named by
appending a randomized suffix to the path, and renames it onto the target
exactly when every step succeeds.  On an encoding or write failure (the file
handle still open) the temporary is removed before the error is returned;
but on a close failure or a rename failure the error is returned with the
temporary file left behind. -/
theorem keyring_write_outcomes (path : List Char)
    (mktempOk encodeOk writeOk closeOk renameOk : Bool) :
    keyringTempName path = path ++ ".XXXXXX".data
    ∧ (let o := webauth_keyring_write_model mktempOk encodeOk writeOk closeOk renameOk
       (o.status = .NONE
          ↔ (mktempOk ∧ encodeOk ∧ writeOk ∧ closeOk ∧ renameOk))
       ∧ (o.targetReplaced ↔ o.status = .NONE)
       ∧ (mktempOk = true → (encodeOk = false ∨ writeOk = false)
            → o.status ≠ .NONE ∧ o.tempLeft = false)
       ∧ (mktempOk = true → encodeOk = true → writeOk = true
            → (closeOk = false ∨ renameOk = false)
            → o.status = .FILE_WRITE ∧ o.tempLeft = true)
       ∧ (mktempOk = false → o.status = .FILE_OPENWRITE ∧ o.tempLeft = false)) := by
  refine ⟨rfl, ?_⟩
  cases mktempOk <;> cases encodeOk <;> cases writeOk <;> cases closeOk
    <;> cases renameOk <;> simp [webauth_keyring_write_model]

/-- C5 amended, witness: with every step but the encoding succeeding, the
outcome is an error with the temporary removed. -/
theorem keyring_write_outcomes_witness :
    (webauth_keyring_write_model true false true true true).status ≠ .NONE
    ∧ (webauth_keyring_write_model true false true true true).tempLeft = false := by
  have h := keyring_write_outcomes "ring".data true false true true true
  exact h.2.2.2.1 rfl (Or.inl rfl)

/-! ### Keyring auto-update (C8, C10) -/

/-- C10: with an existing readable keyring file and a lifetime of zero,
auto_update reports outcome NONE, hands back the keyring read from the
file, and leaves the file untouched, whatever the age of the keys: the
check_ring rotation step only runs when lifetime is positive
(src/lib/keyring.c line 426). -/
theorem auto_update_zero_lifetime (now : Nat) (newKey : WKey) (r : Keyring)
    (create : Bool) :
    webauth_keyring_auto_update now newKey (some r) create 0
      = ⟨.NONE, some r, .kauNone, .NONE, some r⟩ := rfl

theorem foldl_max_attained (l : List KeyringEntry) (i : Nat) :
    l.foldl (fun a e => max a e.valid_after) i = i
    ∨ ∃ e ∈ l, l.foldl (fun a e => max a e.valid_after) i = e.valid_after := by
  induction l generalizing i with
  | nil => exact Or.inl rfl
  | cons e l ih =>
    simp only [List.foldl_cons]
    rcases ih (max i e.valid_after) with h | ⟨x, hx, hval⟩
    · rcases max_choice i e.valid_after with hm | hm
      · exact Or.inl (by rw [h, hm])
      · exact Or.inr ⟨e, by simp, by rw [h, hm]⟩
    · exact Or.inr ⟨x, by simp [hx], hval⟩

theorem ringNewest_attained (r : Keyring) (hne : r ≠ []) :
    ∃ e ∈ r, ringNewest r = e.valid_after := by
  cases r with
  | nil => exact absurd rfl hne
  | cons q qs =>
    unfold ringNewest
    simp only [List.foldl_cons, Nat.zero_max]
    rcases foldl_max_attained qs q.valid_after with h | ⟨x, hx, hval⟩
    · exact ⟨q, by simp, h⟩
    · exact ⟨x, by simp [hx], hval⟩

/-- C8: auto_update is idempotent within a lifetime window.  If a call at
time now1 on an existing non-empty keyring rotates (outcome UPDATE), then a
following call at any time now2 before now1 + lifetime on the resulting
file reports outcome NONE and leaves the file unchanged; and the rotation
itself only happens when now1 minus the maximum valid_after over the ring's
entries is at least lifetime. -/
theorem auto_update_idempotent_within_lifetime
    (now1 now2 lifetime : Nat) (k1 k2 : WKey) (r : Keyring) (create : Bool)
    (hne : r ≠ [])
    (h1 : (webauth_keyring_auto_update now1 k1 (some r) create
            lifetime).updated = .kauUpdate)
    (h12 : now1 ≤ now2) (hwin : now2 < now1 + lifetime) :
    (webauth_keyring_auto_update now2 k2
        (webauth_keyring_auto_update now1 k1 (some r) create lifetime).file
        create lifetime).updated = .kauNone
    ∧ (webauth_keyring_auto_update now2 k2
        (webauth_keyring_auto_update now1 k1 (some r) create lifetime).file
        create lifetime).file
      = (webauth_keyring_auto_update now1 k1 (some r) create lifetime).file
    ∧ lifetime ≤ now1 - ringNewest r := by
  by_cases hlt : lifetime > 0
  · unfold webauth_keyring_auto_update at h1 ⊢
    simp only [hlt, if_true] at h1 ⊢
    by_cases hrot : r.any (fun e => e.valid_after + lifetime > now1)
    · exfalso
      unfold check_ring at h1
      simp [hrot] at h1
    · unfold check_ring at h1 ⊢
      simp only [hrot, if_false, Bool.false_eq_true] at h1 ⊢
      have hall : ∀ e ∈ r, e.valid_after + lifetime ≤ now1 := by
        intro e he
        have := (List.any_eq_false.mp (Bool.not_eq_true _ ▸ hrot)) e he
        simp only [decide_eq_true_eq, Nat.not_lt] at this
        omega
      have hnew : (webauth_keyring_add r now1 now1 k1).any
          (fun e => e.valid_after + lifetime > now2) = true := by
        apply List.any_eq_true.mpr
        refine ⟨⟨now1, now1, webauth_key_copy k1⟩, ?_, ?_⟩
        · unfold webauth_keyring_add
          simp
        · simp only [decide_eq_true_eq]
          omega
      simp only [if_false, Bool.false_eq_true, hnew, if_true]
      refine ⟨by trivial, by trivial, ?_⟩
      obtain ⟨e, he, hval⟩ := ringNewest_attained r hne
      have := hall e he
      omega
  · exfalso
    unfold webauth_keyring_auto_update at h1
    simp [hlt] at h1

/-- C8 witness: a one-entry ring with valid_after 0, lifetime 5, first call
at time 10 (which rotates), second call at time 12 < 10 + 5. -/
theorem auto_update_idempotent_witness :
    (webauth_keyring_auto_update 12 ⟨1, ['b']⟩
        (webauth_keyring_auto_update 10 ⟨1, ['a']⟩
          (some [⟨0, 0, ⟨1, ['k']⟩⟩]) false 5).file
        false 5).updated = .kauNone
    ∧ 5 ≤ 10 - ringNewest [⟨0, 0, ⟨1, ['k']⟩⟩] := by
  have h := auto_update_idempotent_within_lifetime 10 12 5 ⟨1, ['a']⟩ ⟨1, ['b']⟩
    [⟨0, 0, ⟨1, ['k']⟩⟩] false (by simp) (by rfl) (by omega) (by omega)
  exact ⟨h.1, h.2.2⟩

/-! ### Login token validation (C9) -/

/-- C9: check_login succeeds exactly when the username is set, exactly one
of password and otp is set, and otp_type is absent whenever password is
set; every violation — both set, neither set, or otp_type together with
password — fails with WA_ERR_CORRUPT; and encoding and decoding validate
identically (the mode is never consulted). -/
theorem check_login_characterization (now : Nat) (mode : EncodeMode)
    (l : TokenLogin) :
    (check_login now mode l = .NONE
      ↔ (l.username ≠ none
          ∧ ((l.password ≠ none ∧ l.otp = none)
              ∨ (l.password = none ∧ l.otp ≠ none))
          ∧ (l.password ≠ none → l.otp_type = none)))
    ∧ (check_login now mode l = .NONE ∨ check_login now mode l = .CORRUPT)
    ∧ check_login now .encode l = check_login now .decode l := by
  refine ⟨?_, ?_, rfl⟩
  · unfold check_login
    split_ifs with h1 h2 h3 h4 <;> simp_all <;> tauto
  · unfold check_login
    split_ifs <;> simp

/-- C9 witness: a login token with both password and otp set fails (the
right side of the characterization is false), and a well-formed one with
only a password passes. -/
theorem check_login_characterization_witness :
    check_login 0 .encode
        ⟨some "u".data, some "p".data, some "o".data, none⟩ = .CORRUPT
    ∧ check_login 0 .encode ⟨some "u".data, some "p".data, none, none⟩
        = .NONE := by
  have hbad := (check_login_characterization 0 .encode
    ⟨some "u".data, some "p".data, some "o".data, none⟩).2.1
  have hgood := (check_login_characterization 0 .encode
    ⟨some "u".data, some "p".data, none, none⟩).1.mpr
    (by refine ⟨by simp, Or.inl ⟨by simp, rfl⟩, fun _ => rfl⟩)
  refine ⟨?_, hgood⟩
  rcases hbad with h | h
  · exfalso
    have := (check_login_characterization 0 .encode
      ⟨some "u".data, some "p".data, some "o".data, none⟩).1.mp h
    rcases this.2.1 with ⟨_, hc⟩ | ⟨hc, _⟩ <;> simp at hc
  · exact h

/-! ### Expiration checking by mode (C6) -/

theorem checkExp_encode (now expiration : Nat) :
    checkExp now .encode expiration
      = if expiration = 0 then .CORRUPT else .NONE := by
  unfold checkExp
  split_ifs <;> simp_all

theorem waSeq_checkExp_encode (now expiration : Nat) (rest : WaErr)
    (h : waSeq (checkExp now .encode expiration) rest = .NONE) :
    expiration ≠ 0 ∧ rest = .NONE := by
  rw [checkExp_encode] at h
  by_cases h0 : expiration = 0
  · simp [h0, waSeq] at h
  · simp [h0, waSeq] at h
    exact ⟨h0, h⟩

theorem waSeq_checkExp_decode_expired (now expiration : Nat) (rest : WaErr)
    (hne : expiration ≠ 0) (hlt : expiration < now) :
    waSeq (checkExp now .decode expiration) rest = .TOKEN_EXPIRED := by
  unfold checkExp check_expiration waSeq
  simp [hne, hlt]

theorem waSeq_checkExp_decode_fresh (now expiration : Nat) (rest : WaErr)
    (hne : expiration ≠ 0) (hge : now ≤ expiration) :
    waSeq (checkExp now .decode expiration) rest = rest := by
  unfold checkExp check_expiration waSeq
  simp [hne, Nat.not_lt.mpr hge]

/-- Shared helper: when per-kind validation passes in ENCODE mode and the
expiration (when the kind carries one) is not in the past, DECODE-mode
validation also passes: the two modes differ only in the expiration
check. -/
theorem check_token_decode_of_encode (now : Nat) (t : Token)
    (henc : check_token now .encode t = .NONE)
    (hexp : ∀ e, tokenExpiration t = some e → now ≤ e) :
    check_token now .decode t = .NONE := by
  cases t with
  | app a =>
    simp only [check_token, check_app] at henc ⊢
    obtain ⟨hne, hrest⟩ := waSeq_checkExp_encode _ _ _ henc
    rw [waSeq_checkExp_decode_fresh _ _ _ hne (hexp _ rfl)]
    exact hrest
  | cred c =>
    simp only [check_token, check_cred] at henc ⊢
    split_ifs at henc ⊢ <;>
      first
        | exact henc
        | (obtain ⟨hne, hrest⟩ := waSeq_checkExp_encode _ _ _ henc
           rw [waSeq_checkExp_decode_fresh _ _ _ hne (hexp _ rfl)]
           try exact hrest)
  | error e => exact henc
  | id i =>
    simp only [check_token, check_id] at henc ⊢
    split_ifs at henc ⊢ <;>
      first
        | exact henc
        | (obtain ⟨hne, hrest⟩ := waSeq_checkExp_encode _ _ _ henc
           rw [waSeq_checkExp_decode_fresh _ _ _ hne (hexp _ rfl)]
           try exact hrest)
  | login l => exact henc
  | proxy p =>
    simp only [check_token, check_proxy] at henc ⊢
    split_ifs at henc ⊢ <;>
      first
        | exact henc
        | (obtain ⟨hne, hrest⟩ := waSeq_checkExp_encode _ _ _ henc
           rw [waSeq_checkExp_decode_fresh _ _ _ hne (hexp _ rfl)]
           try exact hrest)
  | request r => exact henc
  | webkdc_factor w =>
    simp only [check_token, check_webkdc_factor] at henc ⊢
    split_ifs at henc ⊢ <;>
      first
        | exact henc
        | (obtain ⟨hne, hrest⟩ := waSeq_checkExp_encode _ _ _ henc
           rw [waSeq_checkExp_decode_fresh _ _ _ hne (hexp _ rfl)]
           try exact hrest)
  | webkdc_proxy w =>
    simp only [check_token, check_webkdc_proxy] at henc ⊢
    split_ifs at henc ⊢ <;>
      first
        | exact henc
        | (obtain ⟨hne, hrest⟩ := waSeq_checkExp_encode _ _ _ henc
           rw [waSeq_checkExp_decode_fresh _ _ _ hne (hexp _ rfl)]
           try exact hrest)
  | webkdc_service w =>
    simp only [check_token, check_webkdc_service] at henc ⊢
    split_ifs at henc ⊢ <;>
      first
        | exact henc
        | (obtain ⟨hne, hrest⟩ := waSeq_checkExp_encode _ _ _ henc
           rw [waSeq_checkExp_decode_fresh _ _ _ hne (hexp _ rfl)]
           try exact hrest)

/-- Shared helper: when per-kind validation passes in ENCODE mode and the
kind carries an expiration that lies strictly in the past, DECODE-mode
validation fails with WA_ERR_TOKEN_EXPIRED. -/
theorem check_token_decode_expired (now : Nat) (t : Token) (e : Nat)
    (henc : check_token now .encode t = .NONE)
    (hexp : tokenExpiration t = some e) (hlt : e < now) :
    check_token now .decode t = .TOKEN_EXPIRED := by
  cases t with
  | app a =>
    simp only [tokenExpiration, Option.some.injEq] at hexp
    subst hexp
    simp only [check_token, check_app] at henc ⊢
    obtain ⟨hne, _⟩ := waSeq_checkExp_encode _ _ _ henc
    exact waSeq_checkExp_decode_expired _ _ _ hne hlt
  | cred c =>
    simp only [tokenExpiration, Option.some.injEq] at hexp
    subst hexp
    simp only [check_token, check_cred] at henc ⊢
    split_ifs at henc ⊢ <;>
      first
        | (obtain ⟨hne, _⟩ := waSeq_checkExp_encode _ _ _ henc
           exact waSeq_checkExp_decode_expired _ _ _ hne hlt)
        | simp at henc
  | error x => simp [tokenExpiration] at hexp
  | id i =>
    simp only [tokenExpiration, Option.some.injEq] at hexp
    subst hexp
    simp only [check_token, check_id] at henc ⊢
    split_ifs at henc ⊢ <;>
      first
        | (obtain ⟨hne, _⟩ := waSeq_checkExp_encode _ _ _ henc
           exact waSeq_checkExp_decode_expired _ _ _ hne hlt)
        | simp at henc
  | login x => simp [tokenExpiration] at hexp
  | proxy p =>
    simp only [tokenExpiration, Option.some.injEq] at hexp
    subst hexp
    simp only [check_token, check_proxy] at henc ⊢
    split_ifs at henc ⊢ <;>
      first
        | (obtain ⟨hne, _⟩ := waSeq_checkExp_encode _ _ _ henc
           exact waSeq_checkExp_decode_expired _ _ _ hne hlt)
        | simp at henc
  | request x => simp [tokenExpiration] at hexp
  | webkdc_factor w =>
    simp only [tokenExpiration, Option.some.injEq] at hexp
    subst hexp
    simp only [check_token, check_webkdc_factor] at henc ⊢
    split_ifs at henc ⊢ <;>
      first
        | (obtain ⟨hne, _⟩ := waSeq_checkExp_encode _ _ _ henc
           exact waSeq_checkExp_decode_expired _ _ _ hne hlt)
        | simp at henc
  | webkdc_proxy w =>
    simp only [tokenExpiration, Option.some.injEq] at hexp
    subst hexp
    simp only [check_token, check_webkdc_proxy] at henc ⊢
    split_ifs at henc ⊢ <;>
      first
        | (obtain ⟨hne, _⟩ := waSeq_checkExp_encode _ _ _ henc
           exact waSeq_checkExp_decode_expired _ _ _ hne hlt)
        | simp at henc
  | webkdc_service w =>
    simp only [tokenExpiration, Option.some.injEq] at hexp
    subst hexp
    simp only [check_token, check_webkdc_service] at henc ⊢
    split_ifs at henc ⊢ <;>
      first
        | (obtain ⟨hne, _⟩ := waSeq_checkExp_encode _ _ _ henc
           exact waSeq_checkExp_decode_expired _ _ _ hne hlt)
        | simp at henc

/-- Shared helper: ENCODE-mode validation never consults the clock. -/
theorem check_token_encode_time_independent (now1 now2 : Nat) (t : Token) :
    check_token now1 .encode t = check_token now2 .encode t := by
  cases t <;>
    simp [check_token, check_app, check_cred, check_error, check_id,
      check_login, check_proxy, check_request, check_webkdc_factor,
      check_webkdc_proxy, check_webkdc_service, checkExp_encode]

/-- C6: for a token record that passes ENCODE-mode validation (so encoding
it succeeds) and carries an expiration attribute, DECODE-mode validation
fails with WA_ERR_TOKEN_EXPIRED whenever the expiration is strictly before
now, and passes whenever the expiration is at or after now (in particular
an expiration equal to now is not rejected as expired); and ENCODE-mode
validation never consults the clock, so the expiration-in-the-past check
runs only when decoding. -/
theorem token_expired_only_on_decode (now : Nat) (t : Token) (e : Nat)
    (henc : check_token now .encode t = .NONE)
    (hexp : tokenExpiration t = some e) :
    (e < now → check_token now .decode t = .TOKEN_EXPIRED)
    ∧ (now ≤ e → check_token now .decode t = .NONE)
    ∧ (∀ m : Nat, check_token m .encode t = .NONE) := by
  refine ⟨fun hlt => check_token_decode_expired now t e henc hexp hlt,
    fun hge => check_token_decode_of_encode now t henc ?_,
    fun m => ?_⟩
  · intro x hx
    rw [hexp] at hx
    cases hx
    exact hge
  · rw [check_token_encode_time_independent m now t]
    exact henc

/-! ### Attribute stream codec lemmas -/

theorem parseValue_cons_semi (cs : List Char) :
    parseValue (';' :: cs) = some ([], cs) := by
  unfold parseValue
  rw [if_pos rfl]

theorem parseValue_cons_escape (c : Char) (cs : List Char) :
    parseValue ('\\' :: c :: cs)
      = match parseValue cs with
        | some (v, rest) => some (c :: v, rest)
        | none => none := rfl

theorem parseValue_cons_plain (c : Char) (cs : List Char)
    (h1 : c ≠ ';') (h2 : c ≠ '\\') :
    parseValue (c :: cs)
      = match parseValue cs with
        | some (v, rest) => some (c :: v, rest)
        | none => none := by
  rw [parseValue.eq_def]
  simp only
  rw [if_neg h1, if_neg h2]

theorem parseValue_escape (v rest : List Char) :
    parseValue (escapeVal v ++ ';' :: rest) = some (v, rest) := by
  induction v with
  | nil =>
    simp only [escapeVal, List.nil_append]
    exact parseValue_cons_semi rest
  | cons c cs ih =>
    by_cases hsp : c = ';' ∨ c = '\\'
    · have hesc : escapeVal (c :: cs) = '\\' :: c :: escapeVal cs := by
        simp [escapeVal, hsp]
      rw [hesc]
      simp only [List.cons_append]
      rw [parseValue_cons_escape, ih]
    · have h1 : c ≠ ';' := fun h => hsp (Or.inl h)
      have h2 : c ≠ '\\' := fun h => hsp (Or.inr h)
      have hesc : escapeVal (c :: cs) = c :: escapeVal cs := by
        simp [escapeVal, hsp]
      rw [hesc]
      simp only [List.cons_append]
      rw [parseValue_cons_plain c _ h1 h2, ih]

theorem parseName_good (n rest : List Char) (h : goodName n) :
    parseName (n ++ '=' :: rest) = some (n, rest) := by
  induction n with
  | nil => rfl
  | cons c cs ih =>
    have hc := h c (by simp)
    have hrest := ih (fun x hx => h x (by simp [goodName, hx]))
    have hsp : ¬(c = ';' ∨ c = '\\') := by
      intro hor
      rcases hor with h | h
      · exact hc.2.1 h
      · exact hc.2.2 h
    simp only [List.cons_append, parseName, List.append_eq]
    rw [if_neg hc.1, if_neg hsp, hrest]

theorem length_le_encodeAttrs (attrs : List (List Char × List Char)) :
    attrs.length ≤ (encodeAttrs attrs).length := by
  induction attrs with
  | nil => simp [encodeAttrs]
  | cons p rest ih =>
    obtain ⟨n, v⟩ := p
    simp only [encodeAttrs, List.length_append, List.length_cons, encodeAttr]
    simp at ih ⊢
    omega

theorem parseAttrsF_encodeAttrs (attrs : List (List Char × List Char))
    (fuel : Nat) (hgood : ∀ p ∈ attrs, goodName p.1)
    (hfuel : attrs.length ≤ fuel) :
    parseAttrsF fuel (encodeAttrs attrs) = some attrs := by
  induction attrs generalizing fuel with
  | nil => cases fuel <;> rfl
  | cons p rest ih =>
    obtain ⟨n, v⟩ := p
    cases fuel with
    | zero => simp at hfuel
    | succ f =>
      have hshape : encodeAttrs ((n, v) :: rest)
          = n ++ '=' :: (escapeVal v ++ ';' :: encodeAttrs rest) := by
        simp [encodeAttrs, encodeAttr]
      have hne : n ++ '=' :: (escapeVal v ++ ';' :: encodeAttrs rest) ≠ [] := by
        simp
      have h1 := parseName_good n (escapeVal v ++ ';' :: encodeAttrs rest)
        (hgood (n, v) (by simp))
      have h2 := parseValue_escape v (encodeAttrs rest)
      have h3 := ih f (fun q hq => hgood q (by simp [hq])) (by simp at hfuel; omega)
      rw [hshape]
      simp only [parseAttrsF, if_neg hne, h1, h2, h3]

theorem parseAttrs_encodeAttrs (attrs : List (List Char × List Char))
    (hgood : ∀ p ∈ attrs, goodName p.1) :
    parseAttrs (encodeAttrs attrs) = some attrs := by
  unfold parseAttrs
  exact parseAttrsF_encodeAttrs attrs _ hgood (length_le_encodeAttrs attrs)

/-! ### Decimal codec lemmas -/

theorem digitsLEVal_natDigitsLE (fuel n : Nat) (h : n ≤ fuel) :
    digitsLEVal (natDigitsLE fuel n) = n := by
  induction fuel generalizing n with
  | zero =>
    have : n = 0 := Nat.le_zero.mp h
    simp [natDigitsLE, digitsLEVal, this]
  | succ f ih =>
    by_cases h0 : n = 0
    · simp [natDigitsLE, digitsLEVal, h0]
    · have hdiv : n / 10 ≤ f := by omega
      simp [natDigitsLE, h0, digitsLEVal, ih _ hdiv]
      omega

theorem natDigitsLE_lt_ten (fuel n : Nat) (d : Nat)
    (hd : d ∈ natDigitsLE fuel n) : d < 10 := by
  induction fuel generalizing n with
  | zero => simp [natDigitsLE] at hd
  | succ f ih =>
    by_cases h0 : n = 0
    · simp [natDigitsLE, h0] at hd
    · simp only [natDigitsLE, h0, if_false] at hd
      rcases List.mem_cons.mp hd with h | h
      · subst h
        omega
      · exact ih _ h

theorem natDigitsLE_ne_nil (n : Nat) (h0 : n ≠ 0) : natDigitsLE n n ≠ [] := by
  intro hnil
  have := digitsLEVal_natDigitsLE n n (le_refl n)
  rw [hnil] at this
  simp [digitsLEVal] at this
  omega

theorem charToDigit_natDigitChar (d : Nat) (hd : d < 10) :
    charToDigit (natDigitChar d) = some d := by
  interval_cases d <;> rfl

theorem parseDigits_map (ds : List Nat) (h : ∀ d ∈ ds, d < 10) :
    parseDigits (ds.map natDigitChar) = some ds := by
  induction ds with
  | nil => rfl
  | cons d ds ih =>
    have hd : d < 10 := h d (by simp)
    have hrest := ih (fun x hx => h x (by simp [hx]))
    simp [parseDigits, charToDigit_natDigitChar d hd, hrest]

theorem ofDec_toDec (n : Nat) : ofDec (toDec n) = some n := by
  by_cases h0 : n = 0
  · subst h0
    rfl
  · unfold toDec ofDec
    simp only [h0, if_false]
    have hne : (natDigitsLE n n).reverse.map natDigitChar ≠ [] := by
      simp [natDigitsLE_ne_nil n h0]
    rw [if_neg hne]
    rw [parseDigits_map _
      (fun d hd => natDigitsLE_lt_ten n n d (List.mem_reverse.mp hd))]
    simp only [List.reverse_reverse]
    rw [digitsLEVal_natDigitsLE n n (le_refl n)]

/-- C6 witness: an app token with subject alice and expiration 5 passes
ENCODE validation at now = 10 but DECODE validation reports it expired. -/
theorem token_expired_only_on_decode_witness :
    check_token 10 .decode
        (.app ⟨some "alice".data, none, none, 0, none, none, 0, 5⟩)
      = .TOKEN_EXPIRED := by
  have h := token_expired_only_on_decode 10
    (.app ⟨some "alice".data, none, none, 0, none, none, 0, 5⟩) 5
    (by rfl) (by rfl)
  exact h.1 (by omega)

/-! ### Token codec, crypto and pipeline lemmas (C1, C4, C7) -/

theorem orDefault_none (v : Option (List Char)) : orDefault v none = v := by
  cases v <;> rfl

theorem lookupAttr_cons (m v : List Char)
    (rest : List (List Char × List Char)) (n : List Char) :
    lookupAttr n ((m, v) :: rest)
      = if m = n then some v else lookupAttr n rest := rfl

theorem lookupAttr_emitStr_append (name n : List Char) (v : Option (List Char))
    (rest : List (List Char × List Char)) :
    lookupAttr n (emitStr name v ++ rest)
      = if name = n then orDefault v (lookupAttr n rest)
        else lookupAttr n rest := by
  cases v <;> by_cases h : name = n <;>
    simp [emitStr, lookupAttr, orDefault, h]

theorem lookupAttr_emitStr_bare (name n : List Char) (v : Option (List Char)) :
    lookupAttr n (emitStr name v) = if name = n then v else none := by
  cases v <;> by_cases h : name = n <;>
    simp [emitStr, lookupAttr, h]

theorem lookupAttr_emitNum_append (name n : List Char) (x : Nat)
    (rest : List (List Char × List Char)) :
    lookupAttr n (emitNum name x ++ rest)
      = if name = n then (if x = 0 then lookupAttr n rest else some (toDec x))
        else lookupAttr n rest := by
  by_cases hx : x = 0 <;> by_cases h : name = n <;>
    simp [emitNum, lookupAttr, h, hx]

theorem lookupAttr_emitNum_bare (name n : List Char) (x : Nat) :
    lookupAttr n (emitNum name x)
      = if name = n then (if x = 0 then none else some (toDec x))
        else none := by
  by_cases hx : x = 0 <;> by_cases h : name = n <;>
    simp [emitNum, lookupAttr, h, hx]

theorem getNum_eval (name : List Char) (attrs : List (List Char × List Char))
    (x : Nat)
    (h : lookupAttr name attrs = if x = 0 then none else some (toDec x)) :
    getNum name attrs = some x := by
  unfold getNum
  rw [h]
  by_cases hx : x = 0
  · simp [hx]
  · simp [hx, ofDec_toDec]

theorem tokenFromAttrs_app (a : TokenApp) :
    tokenFromAttrs (tokenToAttrs (.app a)) = some (.app a) := by
  have hs : lookupAttr "s".data (tokenToAttrs (.app a)) = a.subject := by
    simp [tokenToAttrs, lookupAttr_cons, lookupAttr_emitStr_append,
      lookupAttr_emitStr_bare, lookupAttr_emitNum_append,
      lookupAttr_emitNum_bare, orDefault_none]
  have hsz : lookupAttr "sz".data (tokenToAttrs (.app a)) = a.authz_subject := by
    simp [tokenToAttrs, lookupAttr_cons, lookupAttr_emitStr_append,
      lookupAttr_emitStr_bare, lookupAttr_emitNum_append,
      lookupAttr_emitNum_bare, orDefault_none]
  have hk : lookupAttr "k".data (tokenToAttrs (.app a)) = a.session_key := by
    simp [tokenToAttrs, lookupAttr_cons, lookupAttr_emitStr_append,
      lookupAttr_emitStr_bare, lookupAttr_emitNum_append,
      lookupAttr_emitNum_bare, orDefault_none]
  have hia : lookupAttr "ia".data (tokenToAttrs (.app a)) = a.initial_factors := by
    simp [tokenToAttrs, lookupAttr_cons, lookupAttr_emitStr_append,
      lookupAttr_emitStr_bare, lookupAttr_emitNum_append,
      lookupAttr_emitNum_bare, orDefault_none]
  have hsn : lookupAttr "sn".data (tokenToAttrs (.app a)) = a.session_factors := by
    simp [tokenToAttrs, lookupAttr_cons, lookupAttr_emitStr_append,
      lookupAttr_emitStr_bare, lookupAttr_emitNum_append,
      lookupAttr_emitNum_bare, orDefault_none]
  have hlt : getNum "lt".data (tokenToAttrs (.app a)) = some a.last_used := by
    apply getNum_eval
    simp [tokenToAttrs, lookupAttr_cons, lookupAttr_emitStr_append,
      lookupAttr_emitStr_bare, lookupAttr_emitNum_append,
      lookupAttr_emitNum_bare, orDefault_none]
  have hloa : getNum "loa".data (tokenToAttrs (.app a)) = some a.loa := by
    apply getNum_eval
    simp [tokenToAttrs, lookupAttr_cons, lookupAttr_emitStr_append,
      lookupAttr_emitStr_bare, lookupAttr_emitNum_append,
      lookupAttr_emitNum_bare, orDefault_none]
  have het : getNum "et".data (tokenToAttrs (.app a)) = some a.expiration := by
    apply getNum_eval
    simp [tokenToAttrs, lookupAttr_cons, lookupAttr_emitStr_append,
      lookupAttr_emitStr_bare, lookupAttr_emitNum_append,
      lookupAttr_emitNum_bare, orDefault_none]
  have ht : lookupAttr "t".data (tokenToAttrs (.app a))
      = some (kindName .app) := by
    simp [tokenToAttrs, lookupAttr_cons]
  unfold tokenFromAttrs
  rw [ht]
  simp [appFromAttrs, hlt, hloa, het, hs, hsz, hk, hia, hsn]

theorem tokenFromAttrs_cred (c : TokenCred) :
    tokenFromAttrs (tokenToAttrs (.cred c)) = some (.cred c) := by
  have hs : lookupAttr "s".data (tokenToAttrs (.cred c)) = c.subject := by
    simp [tokenToAttrs, lookupAttr_cons, lookupAttr_emitStr_append,
      lookupAttr_emitStr_bare, lookupAttr_emitNum_append,
      lookupAttr_emitNum_bare, orDefault_none]
  have hcrt : lookupAttr "crt".data (tokenToAttrs (.cred c)) = c.typ := by
    simp [tokenToAttrs, lookupAttr_cons, lookupAttr_emitStr_append,
      lookupAttr_emitStr_bare, lookupAttr_emitNum_append,
      lookupAttr_emitNum_bare, orDefault_none]
  have hcrs : lookupAttr "crs".data (tokenToAttrs (.cred c)) = c.service := by
    simp [tokenToAttrs, lookupAttr_cons, lookupAttr_emitStr_append,
      lookupAttr_emitStr_bare, lookupAttr_emitNum_append,
      lookupAttr_emitNum_bare, orDefault_none]
  have hcrd : lookupAttr "crd".data (tokenToAttrs (.cred c)) = c.data := by
    simp [tokenToAttrs, lookupAttr_cons, lookupAttr_emitStr_append,
      lookupAttr_emitStr_bare, lookupAttr_emitNum_append,
      lookupAttr_emitNum_bare, orDefault_none]
  have het : getNum "et".data (tokenToAttrs (.cred c)) = some c.expiration := by
    apply getNum_eval
    simp [tokenToAttrs, lookupAttr_cons, lookupAttr_emitStr_append,
      lookupAttr_emitStr_bare, lookupAttr_emitNum_append,
      lookupAttr_emitNum_bare, orDefault_none]
  have ht : lookupAttr "t".data (tokenToAttrs (.cred c))
      = some (kindName .cred) := by
    simp [tokenToAttrs, lookupAttr_cons]
  unfold tokenFromAttrs
  rw [ht]
  simp [kindName, credFromAttrs, hs, hcrt, hcrs, hcrd, het]

theorem tokenFromAttrs_error (e : TokenError) :
    tokenFromAttrs (tokenToAttrs (.error e)) = some (.error e) := by
  have hec : getNum "ec".data (tokenToAttrs (.error e)) = some e.code := by
    apply getNum_eval
    simp [tokenToAttrs, lookupAttr_cons, lookupAttr_emitStr_append,
      lookupAttr_emitStr_bare, lookupAttr_emitNum_append,
      lookupAttr_emitNum_bare, orDefault_none]
  have hem : lookupAttr "em".data (tokenToAttrs (.error e)) = e.message := by
    simp [tokenToAttrs, lookupAttr_cons, lookupAttr_emitStr_append,
      lookupAttr_emitStr_bare, lookupAttr_emitNum_append,
      lookupAttr_emitNum_bare, orDefault_none]
  have ht : lookupAttr "t".data (tokenToAttrs (.error e))
      = some (kindName .error) := by
    simp [tokenToAttrs, lookupAttr_cons]
  unfold tokenFromAttrs
  rw [ht]
  simp [kindName, errorFromAttrs, hec, hem]

theorem tokenFromAttrs_id (i : TokenId) :
    tokenFromAttrs (tokenToAttrs (.id i)) = some (.id i) := by
  have hs : lookupAttr "s".data (tokenToAttrs (.id i)) = i.subject := by
    simp [tokenToAttrs, lookupAttr_cons, lookupAttr_emitStr_append,
      lookupAttr_emitStr_bare, lookupAttr_emitNum_append,
      lookupAttr_emitNum_bare, orDefault_none]
  have hsat : lookupAttr "sat".data (tokenToAttrs (.id i)) = i.auth := by
    simp [tokenToAttrs, lookupAttr_cons, lookupAttr_emitStr_append,
      lookupAttr_emitStr_bare, lookupAttr_emitNum_append,
      lookupAttr_emitNum_bare, orDefault_none]
  have hsad : lookupAttr "sad".data (tokenToAttrs (.id i)) = i.auth_data := by
    simp [tokenToAttrs, lookupAttr_cons, lookupAttr_emitStr_append,
      lookupAttr_emitStr_bare, lookupAttr_emitNum_append,
      lookupAttr_emitNum_bare, orDefault_none]
  have het : getNum "et".data (tokenToAttrs (.id i)) = some i.expiration := by
    apply getNum_eval
    simp [tokenToAttrs, lookupAttr_cons, lookupAttr_emitStr_append,
      lookupAttr_emitStr_bare, lookupAttr_emitNum_append,
      lookupAttr_emitNum_bare, orDefault_none]
  have ht : lookupAttr "t".data (tokenToAttrs (.id i))
      = some (kindName .id) := by
    simp [tokenToAttrs, lookupAttr_cons]
  unfold tokenFromAttrs
  rw [ht]
  simp [kindName, idFromAttrs, hs, hsat, hsad, het]

theorem tokenFromAttrs_login (l : TokenLogin) :
    tokenFromAttrs (tokenToAttrs (.login l)) = some (.login l) := by
  have hu : lookupAttr "u".data (tokenToAttrs (.login l)) = l.username := by
    simp [tokenToAttrs, lookupAttr_cons, lookupAttr_emitStr_append,
      lookupAttr_emitStr_bare, lookupAttr_emitNum_append,
      lookupAttr_emitNum_bare, orDefault_none]
  have hp : lookupAttr "p".data (tokenToAttrs (.login l)) = l.password := by
    simp [tokenToAttrs, lookupAttr_cons, lookupAttr_emitStr_append,
      lookupAttr_emitStr_bare, lookupAttr_emitNum_append,
      lookupAttr_emitNum_bare, orDefault_none]
  have hotp : lookupAttr "otp".data (tokenToAttrs (.login l)) = l.otp := by
    simp [tokenToAttrs, lookupAttr_cons, lookupAttr_emitStr_append,
      lookupAttr_emitStr_bare, lookupAttr_emitNum_append,
      lookupAttr_emitNum_bare, orDefault_none]
  have hott : lookupAttr "ott".data (tokenToAttrs (.login l)) = l.otp_type := by
    simp [tokenToAttrs, lookupAttr_cons, lookupAttr_emitStr_append,
      lookupAttr_emitStr_bare, lookupAttr_emitNum_append,
      lookupAttr_emitNum_bare, orDefault_none]
  have ht : lookupAttr "t".data (tokenToAttrs (.login l))
      = some (kindName .login) := by
    simp [tokenToAttrs, lookupAttr_cons]
  unfold tokenFromAttrs
  rw [ht]
  simp [kindName, loginFromAttrs, hu, hp, hotp, hott]

theorem tokenFromAttrs_proxy (p : TokenProxy) :
    tokenFromAttrs (tokenToAttrs (.proxy p)) = some (.proxy p) := by
  have hs : lookupAttr "s".data (tokenToAttrs (.proxy p)) = p.subject := by
    simp [tokenToAttrs, lookupAttr_cons, lookupAttr_emitStr_append,
      lookupAttr_emitStr_bare, lookupAttr_emitNum_append,
      lookupAttr_emitNum_bare, orDefault_none]
  have hpt : lookupAttr "pt".data (tokenToAttrs (.proxy p)) = p.typ := by
    simp [tokenToAttrs, lookupAttr_cons, lookupAttr_emitStr_append,
      lookupAttr_emitStr_bare, lookupAttr_emitNum_append,
      lookupAttr_emitNum_bare, orDefault_none]
  have hwt : lookupAttr "wt".data (tokenToAttrs (.proxy p)) = p.webkdc_proxy := by
    simp [tokenToAttrs, lookupAttr_cons, lookupAttr_emitStr_append,
      lookupAttr_emitStr_bare, lookupAttr_emitNum_append,
      lookupAttr_emitNum_bare, orDefault_none]
  have het : getNum "et".data (tokenToAttrs (.proxy p)) = some p.expiration := by
    apply getNum_eval
    simp [tokenToAttrs, lookupAttr_cons, lookupAttr_emitStr_append,
      lookupAttr_emitStr_bare, lookupAttr_emitNum_append,
      lookupAttr_emitNum_bare, orDefault_none]
  have ht : lookupAttr "t".data (tokenToAttrs (.proxy p))
      = some (kindName .proxy) := by
    simp [tokenToAttrs, lookupAttr_cons]
  unfold tokenFromAttrs
  rw [ht]
  simp [kindName, proxyFromAttrs, hs, hpt, hwt, het]

theorem tokenFromAttrs_request (r : TokenRequest) :
    tokenFromAttrs (tokenToAttrs (.request r)) = some (.request r) := by
  have hrtt : lookupAttr "rtt".data (tokenToAttrs (.request r)) = r.typ := by
    simp [tokenToAttrs, lookupAttr_cons, lookupAttr_emitStr_append,
      lookupAttr_emitStr_bare, lookupAttr_emitNum_append,
      lookupAttr_emitNum_bare, orDefault_none]
  have hsat : lookupAttr "sat".data (tokenToAttrs (.request r)) = r.auth := by
    simp [tokenToAttrs, lookupAttr_cons, lookupAttr_emitStr_append,
      lookupAttr_emitStr_bare, lookupAttr_emitNum_append,
      lookupAttr_emitNum_bare, orDefault_none]
  have hpt : lookupAttr "pt".data (tokenToAttrs (.request r)) = r.proxy_type := by
    simp [tokenToAttrs, lookupAttr_cons, lookupAttr_emitStr_append,
      lookupAttr_emitStr_bare, lookupAttr_emitNum_append,
      lookupAttr_emitNum_bare, orDefault_none]
  have has : lookupAttr "as".data (tokenToAttrs (.request r)) = r.state := by
    simp [tokenToAttrs, lookupAttr_cons, lookupAttr_emitStr_append,
      lookupAttr_emitStr_bare, lookupAttr_emitNum_append,
      lookupAttr_emitNum_bare, orDefault_none]
  have hru : lookupAttr "ru".data (tokenToAttrs (.request r)) = r.return_url := by
    simp [tokenToAttrs, lookupAttr_cons, lookupAttr_emitStr_append,
      lookupAttr_emitStr_bare, lookupAttr_emitNum_append,
      lookupAttr_emitNum_bare, orDefault_none]
  have hro : lookupAttr "ro".data (tokenToAttrs (.request r)) = r.options := by
    simp [tokenToAttrs, lookupAttr_cons, lookupAttr_emitStr_append,
      lookupAttr_emitStr_bare, lookupAttr_emitNum_append,
      lookupAttr_emitNum_bare, orDefault_none]
  have hia : lookupAttr "ia".data (tokenToAttrs (.request r)) = r.initial_factors := by
    simp [tokenToAttrs, lookupAttr_cons, lookupAttr_emitStr_append,
      lookupAttr_emitStr_bare, lookupAttr_emitNum_append,
      lookupAttr_emitNum_bare, orDefault_none]
  have hsn : lookupAttr "sn".data (tokenToAttrs (.request r)) = r.session_factors := by
    simp [tokenToAttrs, lookupAttr_cons, lookupAttr_emitStr_append,
      lookupAttr_emitStr_bare, lookupAttr_emitNum_append,
      lookupAttr_emitNum_bare, orDefault_none]
  have hcmd : lookupAttr "cmd".data (tokenToAttrs (.request r)) = r.command := by
    simp [tokenToAttrs, lookupAttr_cons, lookupAttr_emitStr_append,
      lookupAttr_emitStr_bare, lookupAttr_emitNum_append,
      lookupAttr_emitNum_bare, orDefault_none]
  have ht : lookupAttr "t".data (tokenToAttrs (.request r))
      = some (kindName .request) := by
    simp [tokenToAttrs, lookupAttr_cons]
  unfold tokenFromAttrs
  rw [ht]
  simp [kindName, requestFromAttrs, hrtt, hsat, hpt, has, hru, hro, hia, hsn, hcmd]

theorem tokenFromAttrs_webkdc_factor (w : TokenWebkdcFactor) :
    tokenFromAttrs (tokenToAttrs (.webkdc_factor w)) = some (.webkdc_factor w) := by
  have hs : lookupAttr "s".data (tokenToAttrs (.webkdc_factor w)) = w.subject := by
    simp [tokenToAttrs, lookupAttr_cons, lookupAttr_emitStr_append,
      lookupAttr_emitStr_bare, lookupAttr_emitNum_append,
      lookupAttr_emitNum_bare, orDefault_none]
  have hia : lookupAttr "ia".data (tokenToAttrs (.webkdc_factor w)) = w.initial_factors := by
    simp [tokenToAttrs, lookupAttr_cons, lookupAttr_emitStr_append,
      lookupAttr_emitStr_bare, lookupAttr_emitNum_append,
      lookupAttr_emitNum_bare, orDefault_none]
  have hsn : lookupAttr "sn".data (tokenToAttrs (.webkdc_factor w)) = w.session_factors := by
    simp [tokenToAttrs, lookupAttr_cons, lookupAttr_emitStr_append,
      lookupAttr_emitStr_bare, lookupAttr_emitNum_append,
      lookupAttr_emitNum_bare, orDefault_none]
  have het : getNum "et".data (tokenToAttrs (.webkdc_factor w)) = some w.expiration := by
    apply getNum_eval
    simp [tokenToAttrs, lookupAttr_cons, lookupAttr_emitStr_append,
      lookupAttr_emitStr_bare, lookupAttr_emitNum_append,
      lookupAttr_emitNum_bare, orDefault_none]
  have ht : lookupAttr "t".data (tokenToAttrs (.webkdc_factor w))
      = some (kindName .webkdc_factor) := by
    simp [tokenToAttrs, lookupAttr_cons]
  unfold tokenFromAttrs
  rw [ht]
  simp [kindName, webkdcFactorFromAttrs, hs, hia, hsn, het]

theorem tokenFromAttrs_webkdc_proxy (w : TokenWebkdcProxy) :
    tokenFromAttrs (tokenToAttrs (.webkdc_proxy w)) = some (.webkdc_proxy w) := by
  have hs : lookupAttr "s".data (tokenToAttrs (.webkdc_proxy w)) = w.subject := by
    simp [tokenToAttrs, lookupAttr_cons, lookupAttr_emitStr_append,
      lookupAttr_emitStr_bare, lookupAttr_emitNum_append,
      lookupAttr_emitNum_bare, orDefault_none]
  have hpt : lookupAttr "pt".data (tokenToAttrs (.webkdc_proxy w)) = w.proxy_type := by
    simp [tokenToAttrs, lookupAttr_cons, lookupAttr_emitStr_append,
      lookupAttr_emitStr_bare, lookupAttr_emitNum_append,
      lookupAttr_emitNum_bare, orDefault_none]
  have hps : lookupAttr "ps".data (tokenToAttrs (.webkdc_proxy w)) = w.proxy_subject := by
    simp [tokenToAttrs, lookupAttr_cons, lookupAttr_emitStr_append,
      lookupAttr_emitStr_bare, lookupAttr_emitNum_append,
      lookupAttr_emitNum_bare, orDefault_none]
  have het : getNum "et".data (tokenToAttrs (.webkdc_proxy w)) = some w.expiration := by
    apply getNum_eval
    simp [tokenToAttrs, lookupAttr_cons, lookupAttr_emitStr_append,
      lookupAttr_emitStr_bare, lookupAttr_emitNum_append,
      lookupAttr_emitNum_bare, orDefault_none]
  have ht : lookupAttr "t".data (tokenToAttrs (.webkdc_proxy w))
      = some (kindName .webkdc_proxy) := by
    simp [tokenToAttrs, lookupAttr_cons]
  unfold tokenFromAttrs
  rw [ht]
  simp [kindName, webkdcProxyFromAttrs, hs, hpt, hps, het]

theorem tokenFromAttrs_webkdc_service (w : TokenWebkdcService) :
    tokenFromAttrs (tokenToAttrs (.webkdc_service w)) = some (.webkdc_service w) := by
  have hs : lookupAttr "s".data (tokenToAttrs (.webkdc_service w)) = w.subject := by
    simp [tokenToAttrs, lookupAttr_cons, lookupAttr_emitStr_append,
      lookupAttr_emitStr_bare, lookupAttr_emitNum_append,
      lookupAttr_emitNum_bare, orDefault_none]
  have hk : lookupAttr "k".data (tokenToAttrs (.webkdc_service w)) = w.session_key := by
    simp [tokenToAttrs, lookupAttr_cons, lookupAttr_emitStr_append,
      lookupAttr_emitStr_bare, lookupAttr_emitNum_append,
      lookupAttr_emitNum_bare, orDefault_none]
  have het : getNum "et".data (tokenToAttrs (.webkdc_service w)) = some w.expiration := by
    apply getNum_eval
    simp [tokenToAttrs, lookupAttr_cons, lookupAttr_emitStr_append,
      lookupAttr_emitStr_bare, lookupAttr_emitNum_append,
      lookupAttr_emitNum_bare, orDefault_none]
  have ht : lookupAttr "t".data (tokenToAttrs (.webkdc_service w))
      = some (kindName .webkdc_service) := by
    simp [tokenToAttrs, lookupAttr_cons]
  unfold tokenFromAttrs
  rw [ht]
  simp [kindName, webkdcServiceFromAttrs, hs, hk, het]

theorem tokenFromAttrs_tokenToAttrs (t : Token) :
    tokenFromAttrs (tokenToAttrs t) = some t := by
  cases t with
  | app a => exact tokenFromAttrs_app a
  | cred c => exact tokenFromAttrs_cred c
  | error e => exact tokenFromAttrs_error e
  | id i => exact tokenFromAttrs_id i
  | login l => exact tokenFromAttrs_login l
  | proxy p => exact tokenFromAttrs_proxy p
  | request r => exact tokenFromAttrs_request r
  | webkdc_factor w => exact tokenFromAttrs_webkdc_factor w
  | webkdc_proxy w => exact tokenFromAttrs_webkdc_proxy w
  | webkdc_service w => exact tokenFromAttrs_webkdc_service w

theorem goodName_emitStr (name : List Char) (v : Option (List Char))
    (h : goodName name) : ∀ p ∈ emitStr name v, goodName p.1 := by
  cases v with
  | none => intro p hp; simp [emitStr] at hp
  | some s =>
    intro p hp
    simp [emitStr] at hp
    subst hp
    exact h

theorem goodName_emitNum (name : List Char) (x : Nat)
    (h : goodName name) : ∀ p ∈ emitNum name x, goodName p.1 := by
  by_cases hx : x = 0
  · intro p hp; simp [emitNum, hx] at hp
  · intro p hp
    simp [emitNum, hx] at hp
    subst hp
    exact h

theorem goodName_append (l1 l2 : List (List Char × List Char))
    (h1 : ∀ p ∈ l1, goodName p.1) (h2 : ∀ p ∈ l2, goodName p.1) :
    ∀ p ∈ l1 ++ l2, goodName p.1 := by
  intro p hp
  rcases List.mem_append.mp hp with h | h
  · exact h1 p h
  · exact h2 p h

theorem goodName_cons (m v : List Char) (l : List (List Char × List Char))
    (hm : goodName m) (hl : ∀ p ∈ l, goodName p.1) :
    ∀ p ∈ (m, v) :: l, goodName p.1 := by
  intro p hp
  rcases List.mem_cons.mp hp with h | h
  · subst h
    exact hm
  · exact hl p h

theorem tokenToAttrs_good (t : Token) : ∀ p ∈ tokenToAttrs t, goodName p.1 := by
  cases t <;>
    · simp only [tokenToAttrs]
      repeat' first
        | apply goodName_emitStr
        | apply goodName_emitNum
        | apply goodName_cons
        | apply goodName_append
        | decide

theorem wai_decode_encode_token (t : Token) :
    wai_decode_token (wai_encode_token t) = some t := by
  unfold wai_encode_token wai_decode_token
  rw [parseAttrs_encodeAttrs _ (tokenToAttrs_good t)]
  exact tokenFromAttrs_tokenToAttrs t

theorem best_key_encrypt_of_mature (now : Nat) (ring : Keyring)
    (e : KeyringEntry) (he : e ∈ ring) (hva : e.valid_after ≤ now) :
    ∃ b ∈ ring, webauth_keyring_best_key now ring .encrypt 0 = .ok b.key := by
  unfold webauth_keyring_best_key
  rw [foldl_step_encrypt_none]
  cases hfil : ring.filter (fun x => x.valid_after ≤ now) with
  | nil =>
    exfalso
    have : e ∈ ring.filter (fun x => x.valid_after ≤ now) :=
      List.mem_filter.mpr ⟨he, by simp [hva]⟩
    rw [hfil] at this
    simp at this
  | cons q qs =>
    refine ⟨qs.foldl pickNewer q, ?_, rfl⟩
    have hmem : qs.foldl pickNewer q ∈ q :: qs := foldl_pickNewer_mem qs q
    rw [← hfil] at hmem
    exact List.mem_of_mem_filter hmem

theorem decryptWithKey_encrypt (key k : WKey) (nonce : List Nat)
    (pt : List Char) :
    decryptWithKey key ⟨keyHintOf k, .enc k nonce pt, .mac k (.enc k nonce pt)⟩
      = if key = k then some pt else none := by
  unfold decryptWithKey
  by_cases h : key = k
  · subst h
    simp
  · have h2 : ¬ (SymTag.mac k (SymCipher.enc k nonce pt)
        = SymTag.mac key (SymCipher.enc k nonce pt)) := by
      intro hc
      injection hc with h3 h4
      exact h h3.symm
    simp [h2, h]

theorem findSome_decrypt (ring : Keyring) (key : WKey) (pt : List Char)
    (f : KeyringEntry → Option (List Char))
    (hf : ∀ e, f e = if e.key = key then some pt else none)
    (hex : ∃ b ∈ ring, b.key = key) :
    ring.findSome? f = some pt := by
  induction ring with
  | nil => simp at hex
  | cons e l ih =>
    rw [List.findSome?_cons]
    by_cases hk : e.key = key
    · simp [hf e, hk]
    · simp only [hf e, hk, if_false]
      apply ih
      rcases hex with ⟨b, hb, hbk⟩
      rcases List.mem_cons.mp hb with h | h
      · exfalso
        subst h
        exact hk hbk
      · exact ⟨b, h, hbk⟩

theorem token_crypt_roundtrip (now : Nat) (nonce : List Nat) (pt : List Char)
    (ring : Keyring) (hq : ∃ e ∈ ring, e.valid_after ≤ now) :
    ∃ raw, webauth_token_encrypt now nonce pt ring = .ok raw
      ∧ webauth_token_decrypt raw ring = .ok pt := by
  obtain ⟨e, he, hva⟩ := hq
  obtain ⟨b, hb, hbk⟩ := best_key_encrypt_of_mature now ring e he hva
  refine ⟨⟨keyHintOf b.key, .enc b.key nonce pt, .mac b.key (.enc b.key nonce pt)⟩, ?_, ?_⟩
  · unfold webauth_token_encrypt
    rw [hbk]
  · unfold webauth_token_decrypt
    rw [findSome_decrypt ring b.key pt _
      (fun x => decryptWithKey_encrypt x.key b.key nonce pt) ⟨b, hb, rfl⟩]

/-- C1: for every token record that passes per-kind validation in ENCODE
mode, and every keyring containing at least one entry whose valid_after is
at or before the current time, encoding under the keyring succeeds, and
decoding the encoded token with expected kind equal to the record's kind and
the same keyring succeeds and returns a record equal to the original —
provided the record's expiration (for the kinds that carry one) is in the
future. -/
theorem token_encode_decode_roundtrip (now : Nat) (nonce : List Nat)
    (t : Token) (ring : Keyring)
    (hvalid : check_token now .encode t = .NONE)
    (hkey : ∃ e ∈ ring, e.valid_after ≤ now)
    (hexp : ∀ e, tokenExpiration t = some e → now < e) :
    ∃ w, webauth_token_encode now nonce t (some ring) = (.NONE, some w)
      ∧ webauth_token_decode now (some (kindOf t)) w ring
          = (.NONE, some t) := by
  obtain ⟨raw, henc, hdec⟩ :=
    token_crypt_roundtrip now nonce (wai_encode_token t) ring hkey
  refine ⟨.b64 raw, ?_, ?_⟩
  · unfold webauth_token_encode webauth_token_encode_raw
    simp [hvalid, henc]
  · unfold webauth_token_decode webauth_token_decode_raw
    simp [hdec, wai_decode_encode_token t,
      check_token_decode_of_encode now t hvalid
        (fun e he => le_of_lt (hexp e he))]

theorem token_encode_decode_roundtrip_witness :
    ∃ w, webauth_token_encode 10 []
        (.login ⟨some "u".data, some "p".data, none, none⟩)
        (some [⟨0, 0, ⟨1, ['a']⟩⟩]) = (.NONE, some w)
      ∧ webauth_token_decode 10
          (some (kindOf (.login ⟨some "u".data, some "p".data, none, none⟩)))
          w [⟨0, 0, ⟨1, ['a']⟩⟩]
          = (.NONE, some (.login ⟨some "u".data, some "p".data, none, none⟩)) :=
  token_encode_decode_roundtrip 10 []
    (.login ⟨some "u".data, some "p".data, none, none⟩) [⟨0, 0, ⟨1, ['a']⟩⟩]
    (by rfl) ⟨⟨0, 0, ⟨1, ['a']⟩⟩, by simp, by decide⟩
    (by intro e he; simp [tokenExpiration] at he)

/-- C4 counterexample: encoding a login token with no username over an
empty (non-null) keyring fails with WA_ERR_CORRUPT, not WA_ERR_BAD_KEY: the
per-kind validation runs before any key is selected
(src/lib/token-encode.c lines 673-675), so the universally quantified claim
fails for records that do not validate. -/
theorem token_encode_empty_ring_corrupt_counterexample :
    webauth_token_encode_raw 0 [] (.login ⟨none, none, none, none⟩) (some [])
      = (.CORRUPT, none)
    ∧ WaErr.CORRUPT ≠ WaErr.BAD_KEY := by
  exact ⟨rfl, by decide⟩

/-- C4 amended: encoding any record under a null keyring fails with
WA_ERR_BAD_KEY before validation, with no ciphertext produced; and encoding
a record that passes per-kind validation under an empty keyring fails with
WA_ERR_BAD_KEY with no ciphertext produced (a record that fails validation
reports its validation error instead, since the null check is the only
keyring check performed before validation). -/
theorem token_encode_bad_key_on_null_or_empty (now : Nat) (nonce : List Nat)
    (t : Token) :
    webauth_token_encode_raw now nonce t none = (.BAD_KEY, none)
    ∧ webauth_token_encode now nonce t none = (.BAD_KEY, none)
    ∧ (check_token now .encode t = .NONE →
        webauth_token_encode_raw now nonce t (some []) = (.BAD_KEY, none)) := by
  refine ⟨rfl, rfl, ?_⟩
  intro h
  unfold webauth_token_encode_raw
  simp [h, webauth_token_encrypt, webauth_keyring_best_key, List.foldl]

theorem token_encode_bad_key_witness :
    webauth_token_encode_raw 0 []
        (.login ⟨some "u".data, some "p".data, none, none⟩) (some [])
      = (.BAD_KEY, none) :=
  (token_encode_bad_key_on_null_or_empty 0 []
    (.login ⟨some "u".data, some "p".data, none, none⟩)).2.2 (by rfl)

theorem webauth_key_create_cases (typ : Nat) (mat : List Char) :
    (∃ k, webauth_key_create typ mat = .ok k)
    ∨ webauth_key_create typ mat = .error .INVALID := by
  unfold webauth_key_create
  split_ifs <;> simp

theorem keyringFromData_no_file_version (entries : List WaiKeyringEntryData)
    (ring : Keyring) :
    (keyringFromData entries ring).1 ≠ .FILE_VERSION
    ∧ ((keyringFromData entries ring).1 ≠ .NONE
        → (keyringFromData entries ring).2 = none) := by
  induction entries generalizing ring with
  | nil =>
    refine ⟨?_, ?_⟩
    · simp [keyringFromData]
    · intro h
      simp [keyringFromData] at h
  | cons e rest ih =>
    rcases webauth_key_create_cases e.key_type e.key with ⟨k, hk⟩ | hk
    · simp only [keyringFromData, hk]
      exact ih _
    · simp only [keyringFromData, hk]
      refine ⟨by decide, fun _ => ?_⟩
      simp

/-- C7: for every byte sequence, when the keyring attribute stream parses
to a record, webauth_keyring_decode fails with WA_ERR_FILE_VERSION exactly
when the decoded version field differs from 1; and on every failure of any
kind the keyring output parameter stays null — no partial keyring escapes. -/
theorem keyring_decode_version_check (input : List Char) :
    (∀ data, wai_keyring_decode input = some data →
        ((webauth_keyring_decode input).1 = .FILE_VERSION ↔ data.version ≠ 1))
    ∧ ((webauth_keyring_decode input).1 ≠ .NONE
        → (webauth_keyring_decode input).2 = none) := by
  unfold webauth_keyring_decode
  cases hw : wai_keyring_decode input with
  | none =>
    refine ⟨fun data hd => absurd hd (by simp), fun _ => rfl⟩
  | some data =>
    constructor
    · intro d hd
      injection hd with hd2
      subst hd2
      by_cases hv : data.version = 1
      · simp only [hv, ne_eq, not_true_eq_false, if_false]
        constructor
        · intro hfv
          exact absurd hfv
            (keyringFromData_no_file_version data.entries webauth_keyring_new).1
        · intro hne
          exact hne.elim
      · simp [hv]
    · by_cases hv : data.version = 1
      · simp only [hv, ne_eq, not_true_eq_false, if_false]
        exact (keyringFromData_no_file_version data.entries webauth_keyring_new).2
      · simp [hv]

theorem keyring_decode_version_witness :
    (webauth_keyring_decode "v=2;n=0;".data).1 = .FILE_VERSION
    ∧ (webauth_keyring_decode "v=2;n=0;".data).2 = none := by
  have h := keyring_decode_version_check "v=2;n=0;".data
  have hw : wai_keyring_decode "v=2;n=0;".data = some ⟨2, []⟩ := by rfl
  have hfv := (h.1 ⟨2, []⟩ hw).mpr (by decide)
  exact ⟨hfv, h.2 (by rw [hfv]; decide)⟩

end WebAuth
